import Mathlib

/-!
Shallow embedding of the rating-ledger and approval engine of
`code/update.py` and `code/config.py` (the "whoishavingthemostfun"
repository).

Modelling conventions, chosen once for the whole file:

* Ratings, scores and probabilities are rationals (`ℚ`).  The Python code
  computes with binary floats; none of the verified claims depends on
  floating-point rounding, only on the exact arithmetic structure of the
  pipeline.
* `calculate_elo_probability` is the transcendental logistic
  `1 / (1 + 10^((b-a)/400))`.  The commit pipeline is parametrised by a
  function `prob : ℚ → ℚ → ℚ` standing for it, exactly where the source
  calls `calculate_elo_probability(x, y)`; every structural claim is proved
  for all `prob`, and concrete counterexamples instantiate `prob` at
  rational values that the logistic attains arbitrarily closely.
* Timestamps are abstracted as `Nat` (a parsed datetime on a total order);
  `normalize_timestamp_to_minute` becomes the identity under this
  abstraction.
* A CSV file is a `List` of typed records; a file that may or may not
  exist on disk is an `Option (List _)` (`none` = no file).  The
  `comments` CSV cell, serialised in Python as `str(list_of_strings)`,
  is modelled as the parsed `List String` itself.
* Error dictionaries `{'error': msg}` are modelled as tagged error values;
  the message text itself is not modelled.
-/

/-- One row of a player ledger CSV (`rating, opponent, result, colour,
timestamp`), as written by `make_new_player` and `write_new_rating`. -/
structure RatingEntry where
  rating : ℚ
  opponent : String
  result : ℚ
  colour : String
  timestamp : Nat
deriving DecidableEq

/-- One row of a scope's `results.csv`
(`timestamp, game, player1, player2, result, probability,
player1_change, player2_change, comments`). -/
structure ResultRecord where
  timestamp : Nat
  game : String
  player1 : String
  player2 : String
  result : String
  probability : ℚ
  player1_change : Option ℤ
  player2_change : Option ℤ
  comments : List String
deriving DecidableEq

instance : Inhabited ResultRecord :=
  ⟨{ timestamp := 0, game := "", player1 := "", player2 := "", result := "",
     probability := 0, player1_change := none, player2_change := none,
     comments := [] }⟩

/-- One row of a scope's `pending_results.csv` (the `results.csv` columns
plus `submission_timestamp, notes_to_admin`).  The `comments` cell of a
pending row is a single raw comment string or empty; it is modelled like
the results cell, as the list of comments it stands for. -/
structure PendingRecord where
  timestamp : Nat
  game : String
  player1 : String
  player2 : String
  result : String
  probability : ℚ
  player1_change : Option ℤ
  player2_change : Option ℤ
  comments : List String
  submission_timestamp : Nat
  notes_to_admin : String
deriving DecidableEq

/-- One row of a scope's `deleted.csv`
(`original_timestamp, deletion_timestamp, game, player1, player2, result,
probability`), written only by `log_deleted_result`. -/
structure DeletedRecord where
  original_timestamp : Nat
  deletion_timestamp : Nat
  game : String
  player1 : String
  player2 : String
  result : String
  probability : ℚ
deriving DecidableEq

/-- The per-scope persistent state: the player-ledger files keyed by
`(game, player)`, and the scope's `results.csv`, `pending_results.csv`
and `deleted.csv`.  `none` models a file that does not exist. -/
structure DB where
  ledgers : List ((String × String) × List RatingEntry)
  results : Option (List ResultRecord)
  pending : Option (List PendingRecord)
  deleted : List DeletedRecord
deriving DecidableEq

/-- Look a ledger up by its `(game, player)` key (the player CSV path). -/
def lookupLedger : List ((String × String) × List RatingEntry) →
    (String × String) → Option (List RatingEntry)
  | [], _ => none
  | (k, v) :: rest, key => if key = k then some v else lookupLedger rest key

/-- Overwrite (or create) the ledger stored under a key. -/
def setLedger : List ((String × String) × List RatingEntry) →
    (String × String) → List RatingEntry →
    List ((String × String) × List RatingEntry)
  | [], key, v => [(key, v)]
  | (k, w) :: rest, key, v =>
      if key = k then (key, v) :: rest else (k, w) :: setLedger rest key v

/-- Remove a ledger file (`delete_player`). -/
def removeLedger : List ((String × String) × List RatingEntry) →
    (String × String) → List ((String × String) × List RatingEntry)
  | [], _ => []
  | (k, v) :: rest, key =>
      if k = key then removeLedger rest key else (k, v) :: removeLedger rest key

theorem lookupLedger_setLedger (ls : List ((String × String) × List RatingEntry))
    (k k' : String × String) (v : List RatingEntry) :
    lookupLedger (setLedger ls k v) k' =
      if k' = k then some v else lookupLedger ls k' := by
  induction ls with
  | nil => by_cases hk' : k' = k <;> simp [setLedger, lookupLedger, hk']
  | cons p rest ih =>
      obtain ⟨pk, pv⟩ := p
      by_cases hk : k = pk
      · subst hk
        by_cases hk' : k' = k <;> simp [setLedger, lookupLedger, hk']
      · by_cases hk' : k' = pk
        · subst hk'
          have hne : ¬ k' = k := fun hh => hk hh.symm
          simp [setLedger, lookupLedger, hk, hne]
        · simp [setLedger, lookupLedger, hk, hk', ih]

theorem setLedger_setLedger_same (ls : List ((String × String) × List RatingEntry))
    (k : String × String) (v w : List RatingEntry) :
    setLedger (setLedger ls k v) k w = setLedger ls k w := by
  induction ls with
  | nil => simp [setLedger]
  | cons p rest ih =>
      obtain ⟨pk, pv⟩ := p
      by_cases hk : k = pk
      · subst hk
        simp [setLedger]
      · simp [setLedger, hk, ih]

theorem setLedger_lookup_id (ls : List ((String × String) × List RatingEntry))
    (k : String × String) (v : List RatingEntry)
    (h : lookupLedger ls k = some v) : setLedger ls k v = ls := by
  induction ls with
  | nil => simp [lookupLedger] at h
  | cons p rest ih =>
      obtain ⟨pk, pv⟩ := p
      by_cases hk : k = pk
      · subst hk
        simp [lookupLedger] at h
        simp [setLedger, h]
      · simp [lookupLedger, hk] at h
        simp [setLedger, hk, ih h]

/-- Setting two distinct present keys and then writing back their original
values restores the ledger list exactly. -/
theorem setLedger_restore (ls : List ((String × String) × List RatingEntry))
    (k1 k2 : String × String) (l1 l2 v1 v2 : List RatingEntry)
    (h12 : k1 ≠ k2) (h1 : lookupLedger ls k1 = some l1)
    (h2 : lookupLedger ls k2 = some l2) :
    setLedger (setLedger (setLedger (setLedger ls k1 v1) k2 v2) k1 l1) k2 l2
      = ls := by
  induction ls with
  | nil => simp [lookupLedger] at h1
  | cons p rest ih =>
      obtain ⟨pk, pv⟩ := p
      by_cases hk1 : k1 = pk
      · subst hk1
        have h2' : lookupLedger rest k2 = some l2 := by
          have hne : ¬ k2 = k1 := fun hh => h12 hh.symm
          simpa [lookupLedger, hne] using h2
        have h1' : pv = l1 := by simpa [lookupLedger] using h1
        have hne : ¬ k2 = k1 := fun hh => h12 hh.symm
        simp [setLedger, hne, h1'.symm, setLedger_setLedger_same,
          setLedger_lookup_id rest k2 l2 h2']
      · by_cases hk2 : k2 = pk
        · subst hk2
          have h1' : lookupLedger rest k1 = some l1 := by
            simpa [lookupLedger, hk1] using h1
          have h2' : pv = l2 := by simpa [lookupLedger] using h2
          simp [setLedger, hk1, h2'.symm, setLedger_setLedger_same,
            setLedger_lookup_id rest k1 l1 h1']
        · have h1' : lookupLedger rest k1 = some l1 := by
            simpa [lookupLedger, hk1] using h1
          have h2' : lookupLedger rest k2 = some l2 := by
            simpa [lookupLedger, hk2] using h2
          simp [setLedger, hk1, hk2, ih h1' h2']

theorem lookupLedger_removeLedger (ls : List ((String × String) × List RatingEntry))
    (k k' : String × String) :
    lookupLedger (removeLedger ls k) k' =
      if k' = k then none else lookupLedger ls k' := by
  induction ls with
  | nil => by_cases hk' : k' = k <;> simp [removeLedger, lookupLedger, hk']
  | cons p rest ih =>
      obtain ⟨pk, pv⟩ := p
      by_cases hpk : pk = k
      · subst hpk
        by_cases hk' : k' = pk
        · subst hk'
          simp [removeLedger, lookupLedger, ih]
        · simp [removeLedger, lookupLedger, hk', ih]
      · by_cases hk' : k' = pk
        · subst hk'
          have hne : ¬ k' = k := fun hh => hpk hh
          simp [removeLedger, lookupLedger, hpk, hne]
        · simp [removeLedger, lookupLedger, hpk, hk', ih]

/-- Python `str.lower` restricted to ASCII, mapped over the characters
(a structurally reducing version of `String.toLower`). -/
def lowerString (s : String) : String :=
  ⟨s.data.map Char.toLower⟩

/-- `config.get_k_factor`: per-game base K, `40` for unknown games
(`config.py` lines 10-20; the lookup lowercases its key). -/
def get_k_factor (game : String) : Nat :=
  let key := lowerString game
  if key = "chess" then 40
  else if key = "pingpong" then 40
  else if key = "backgammon" then 10
  else 40

/-- `count_player_games` (`update.py` lines 122-148): number of ledger rows
minus the bootstrap entry, clamped at `0`, and `0` when the player file
does not exist. -/
def count_player_games (db : DB) (player game : String) : Nat :=
  match lookupLedger db.ledgers (game, player) with
  | none => 0
  | some l => l.length - 1

/-- `get_adjusted_k_factor` (`update.py` lines 150-172): the per-game base
K-factor, reduced to `min 20 base` once the player has 20 or more
committed games. -/
def get_adjusted_k_factor (db : DB) (player game : String) : Nat :=
  let base := get_k_factor game
  let games_played := count_player_games db player game
  if games_played ≥ 20 then min 20 base else base

/-- Python `round`: round half to even (banker's rounding), as applied by
`round(...)` in `update` and `int(round(...))` in the result loggers. -/
def pyRound (q : ℚ) : ℤ :=
  if q - ⌊q⌋ < 1 / 2 then ⌊q⌋
  else if q - ⌊q⌋ > 1 / 2 then ⌊q⌋ + 1
  else if 2 ∣ ⌊q⌋ then ⌊q⌋ else ⌊q⌋ + 1

/-- The clamping step of the legacy `update` function (`update.py` lines
74-77): a nonzero change of magnitude below 1 becomes `c / |c| = ±1`. -/
def clampDelta (c : ℚ) : ℚ :=
  if |c| < 1 ∧ c ≠ 0 then c / |c| else c

/-- Legacy `update` (`update.py` lines 62-82), used by the CLI commit path
in `main.py`: computes both probabilities via `prob`
(= `calculate_elo_probability`), clamps each change, and returns the two
rounded new ratings together with player 1's win probability. -/
def update (prob : ℚ → ℚ → ℚ) (rating1 rating2 score : ℚ) (K : ℚ) :
    ℤ × ℤ × ℚ :=
  let score1 := score
  let score2 := 1 - score
  let prob1 := prob rating1 rating2
  let prob2 := prob rating2 rating1
  let change1 := clampDelta ((score1 - prob1) * K)
  let change2 := clampDelta ((score2 - prob2) * K)
  (pyRound (rating1 + change1), pyRound (rating2 + change2), prob1)

/-- `write_new_rating` (`update.py` lines 86-120): append one row to a
player's ledger CSV.  Appending to a path with no file creates the file
holding just that row (`open(path, 'a')`). -/
def write_new_rating (db : DB) (player : String) (new_rating : ℚ)
    (opponent : String) (result : ℚ) (game colour : String) (ts : Nat) :
    DB :=
  let entry : RatingEntry :=
    { rating := new_rating, opponent := opponent, result := result,
      colour := colour, timestamp := ts }
  let key := (game, player)
  match lookupLedger db.ledgers key with
  | some l => { db with ledgers := setLedger db.ledgers key (l ++ [entry]) }
  | none => { db with ledgers := setLedger db.ledgers key [entry] }

/-- `make_new_player` (`update.py` lines 187-230): create the ledger file
with the single bootstrap row
`(starting_rating, "no opponent", 0, "no colour", starting_timestamp)`,
skipping creation when the file already exists. -/
def make_new_player (db : DB) (player game : String) (starting_rating : ℚ)
    (starting_ts : Nat) : DB :=
  match lookupLedger db.ledgers (game, player) with
  | some _ => db
  | none =>
      { db with
        ledgers := setLedger db.ledgers (game, player)
          [{ rating := starting_rating, opponent := "no opponent",
             result := 0, colour := "no colour",
             timestamp := starting_ts }] }

/-- `delete_player` (`update.py` lines 789-818): remove the player's
ledger file entirely. -/
def delete_player (db : DB) (player game : String) : DB :=
  { db with ledgers := removeLedger db.ledgers (game, player) }

/-- The `comments` cell written for a freshly logged row: the submitted
comment, or the empty cell. -/
def commentCell : Option String → List String
  | some c => [c]
  | none => []

/-- `log_result_to_team` (`update.py` lines 232-313): append one row to the
scope's `results.csv`, creating the file first when absent.  The column
backfill on pre-existing rows is the identity here because records are
already fully typed.  Rating changes are stored as `int(round(change))`. -/
def log_result_to_team (db : DB) (player1 player2 result game : String)
    (probability : ℚ) (ts : Nat) (change1 change2 : Option ℚ)
    (comment : Option String) : DB :=
  let record : ResultRecord :=
    { timestamp := ts, game := game, player1 := player1, player2 := player2,
      result := result, probability := probability,
      player1_change := change1.map pyRound,
      player2_change := change2.map pyRound,
      comments := commentCell comment }
  { db with results := some ((db.results.getD []) ++ [record]) }

/-- `log_deleted_result` (`update.py` lines 315-359): append one audit row
to the scope's `deleted.csv`, creating the file first when absent. -/
def log_deleted_result (db : DB) (player1 player2 result game : String)
    (probability : ℚ) (original_ts deletion_ts : Nat) : DB :=
  { db with
    deleted := db.deleted ++
      [{ original_timestamp := original_ts, deletion_timestamp := deletion_ts,
         game := game, player1 := player1, player2 := player2,
         result := result, probability := probability }] }

/-- The error outcomes of `submit_game_without_charts` /
`submit_game_with_charts`: the three validation messages, and the pandas
exceptions surfaced when a player CSV is missing (`FileNotFoundError` in
`read_ratings`) or holds no rows (`IndexError` on `ratings[-1]`). -/
inductive SubmitError where
  | bothPlayersRequired
  | playersMustDiffer
  | invalidResultFormat
  | playerFileMissing
  | playerLedgerEmpty
deriving DecidableEq

/-- Outcome of a direct commit: the success dictionary's numeric payload,
or a tagged error. -/
inductive SubmitOutcome where
  | ok (new_rating1 new_rating2 probability : ℚ)
  | err (e : SubmitError)
deriving DecidableEq

/-- The score conversion of the commit paths (`update.py` lines
1095-1101): "1-0" is 1.0 for player 1, "0-1" is 0.0, and "1/2-1/2"
is 0.5. -/
def submitScore (result : String) : ℚ :=
  if result = "1-0" then 1 else if result = "0-1" then 0 else 1/2

/-- `submit_game_without_charts` (`update.py` lines 1068-1161), the direct
commit: validate, read both latest ratings, compute per-player K-factors
on pre-commit game counts, compute both expected scores through `prob`
(= `calculate_elo_probability`), apply the raw changes, append one ledger
row per player and one `results.csv` row.  Every error path happens
before any write and leaves the state unchanged. -/
def submit_game_without_charts (prob : ℚ → ℚ → ℚ) (db : DB)
    (player1 player2 result game : String) (ts : Nat)
    (comment : Option String) : DB × SubmitOutcome :=
  if player1 = "" ∨ player2 = "" then (db, .err .bothPlayersRequired)
  else if player1 = player2 then (db, .err .playersMustDiffer)
  else if ¬ (result = "1-0" ∨ result = "0-1" ∨ result = "1/2-1/2") then
    (db, .err .invalidResultFormat)
  else
    let score : ℚ := submitScore result
    match lookupLedger db.ledgers (game, player1),
          lookupLedger db.ledgers (game, player2) with
    | some l1, some l2 =>
      match l1.getLast?, l2.getLast? with
      | some e1, some e2 =>
        let rating1 := e1.rating
        let rating2 := e2.rating
        let k_factor1 : ℚ := get_adjusted_k_factor db player1 game
        let k_factor2 : ℚ := get_adjusted_k_factor db player2 game
        let expected_score1 := prob rating1 rating2
        let expected_score2 := prob rating2 rating1
        let rating_change1 := (score - expected_score1) * k_factor1
        let rating_change2 := ((1 - score) - expected_score2) * k_factor2
        let probability := expected_score1
        let new_rating1 := rating1 + rating_change1
        let new_rating2 := rating2 + rating_change2
        let db1 := write_new_rating db player1 new_rating1 player2 score
          game "white" ts
        let db2 := write_new_rating db1 player2 new_rating2 player1
          (1 - score) game "black" ts
        let db3 := log_result_to_team db2 player1 player2 result game
          probability ts (some rating_change1) (some rating_change2) comment
        (db3, .ok new_rating1 new_rating2 probability)
      | _, _ => (db, .err .playerLedgerEmpty)
    | _, _ => (db, .err .playerFileMissing)

/-- `submit_game_with_charts` (`update.py` lines 975-1066): identical
state transition to `submit_game_without_charts`; the only difference in
the source is chart regeneration, which is outside the modelled state. -/
def submit_game_with_charts (prob : ℚ → ℚ → ℚ) (db : DB)
    (player1 player2 result game : String) (ts : Nat)
    (comment : Option String) : DB × SubmitOutcome :=
  submit_game_without_charts prob db player1 player2 result game ts comment

/-- Error outcomes of `undo_last_result`. -/
inductive UndoError where
  | noResultsFile
  | noResults
deriving DecidableEq

/-- Outcome of `undo_last_result`: the undone row plus the ledger entries
removed for each player, or a tagged error. -/
inductive UndoOutcome where
  | ok (undone : ResultRecord) (deleted_entries : List (String × RatingEntry))
  | err (e : UndoError)
deriving DecidableEq

/-- The per-player loop body shared by `undo_last_result` (lines 919-954)
and `delete_last_entry` (lines 831-855): skip a missing ledger file with a
warning, skip a ledger holding only the bootstrap row with a warning, and
otherwise record and remove the last row.  Returns the removed entry when
one was removed. -/
def undoTruncatePlayer (db : DB) (game player : String) :
    DB × Option (String × RatingEntry) :=
  match lookupLedger db.ledgers (game, player) with
  | none => (db, none)
  | some l =>
      if l.length ≤ 1 then (db, none)
      else
        match l.getLast? with
        | some last =>
            ({ db with ledgers := setLedger db.ledgers (game, player) l.dropLast },
             some (player, last))
        | none => (db, none)

/-- `delete_last_entry` (`update.py` lines 820-855): for each listed
player, remove the most recent ledger row, skipping missing ledgers and
ledgers that hold only the bootstrap entry. -/
def delete_last_entry (db : DB) (game : String) (players : List String) : DB :=
  players.foldl (fun d p => (undoTruncatePlayer d game p).1) db

/-- `undo_last_result` (`update.py` lines 857-973): read the tail row of
`results.csv`, archive it into `deleted.csv`, drop it from `results.csv`,
then truncate the tail ledger row of each named player (with the skip
rules of `undoTruncatePlayer`). -/
def undo_last_result (db : DB) (deletion_ts : Nat) : DB × UndoOutcome :=
  match db.results with
  | none => (db, .err .noResultsFile)
  | some rows =>
      match rows.getLast? with
      | none => (db, .err .noResults)
      | some last =>
          let db1 := log_deleted_result db last.player1 last.player2
            last.result last.game last.probability last.timestamp deletion_ts
          let db2 := { db1 with results := some rows.dropLast }
          let step1 := undoTruncatePlayer db2 last.game last.player1
          let step2 := undoTruncatePlayer step1.1 last.game last.player2
          (step2.1, .ok last (step1.2.toList ++ step2.2.toList))

/-- Error outcomes of `add_comment_to_result`. -/
inductive CommentError where
  | noResultsFile
  | noResults
  | invalidPosition
  | timestampMismatch
deriving DecidableEq

/-- Outcome of `add_comment_to_result`: on success the target row's
timestamp is echoed back. -/
inductive CommentOutcome where
  | ok (ts : Nat)
  | err (e : CommentError)
deriving DecidableEq

/-- The comment string stored by `add_comment_to_result`:
`'"<comment>" - <commenter>'`. -/
def formatComment (comment commenter : String) : String :=
  "\"" ++ comment ++ "\" - " ++ commenter

/-- `add_comment_to_result` (`update.py` lines 1163-1255): the results log
is addressed newest-first, so the target storage row is
`total_rows - 1 - offset - index`; an out-of-range position is rejected
before any write, an optional timestamp must match the target row
(minute-normalisation is the identity under the `Nat` timestamp
abstraction), and on success the formatted comment is appended to the
target row's comment list. -/
def add_comment_to_result (db : DB) (tsParam : Option Nat)
    (comment commenter : String) (offset index : ℤ) : DB × CommentOutcome :=
  match db.results with
  | none => (db, .err .noResultsFile)
  | some rows =>
      if rows.isEmpty then (db, .err .noResults)
      else
        let total_rows : ℤ := rows.length
        let row_index : ℤ := total_rows - 1 - offset - index
        if row_index < 0 ∨ row_index ≥ total_rows then
          (db, .err .invalidPosition)
        else
          let i := row_index.toNat
          let r := rows.getD i default
          let updated := { r with
            comments := r.comments ++ [formatComment comment commenter] }
          match tsParam with
          | some t =>
              if t ≠ r.timestamp then (db, .err .timestampMismatch)
              else
                ({ db with results := some (rows.set i updated) }, .ok r.timestamp)
          | none =>
              ({ db with results := some (rows.set i updated) }, .ok r.timestamp)

instance : Inhabited PendingRecord :=
  ⟨{ timestamp := 0, game := "", player1 := "", player2 := "", result := "",
     probability := 0, player1_change := none, player2_change := none,
     comments := [], submission_timestamp := 0, notes_to_admin := "" }⟩

/-- `log_pending_result` (`update.py` lines 361-450): append one row to the
scope's `pending_results.csv`, creating the file when absent; the
submission timestamp is the write-time clock and `notes_to_admin` starts
empty. -/
def log_pending_result (db : DB) (player1 player2 result game : String)
    (probability : ℚ) (ts submission_ts : Nat) (change1 change2 : Option ℚ)
    (comment : Option String) : DB :=
  let record : PendingRecord :=
    { timestamp := ts, game := game, player1 := player1, player2 := player2,
      result := result, probability := probability,
      player1_change := change1.map pyRound,
      player2_change := change2.map pyRound,
      comments := commentCell comment,
      submission_timestamp := submission_ts, notes_to_admin := "" }
  { db with pending := some ((db.pending.getD []) ++ [record]) }

/-- Error outcomes of the by-index pending-queue operations. -/
inductive PendingError where
  | noFile
  | empty
  | invalidIndex
deriving DecidableEq

/-- Outcome of the by-index pending-queue operations. -/
inductive PendingOutcome where
  | ok
  | err (e : PendingError)
deriving DecidableEq

/-- `delete_pending_result` (`update.py` lines 597-663): drop the row at a
0-based storage index; when no rows remain the file itself is removed. -/
def delete_pending_result (db : DB) (index : Nat) : DB × PendingOutcome :=
  match db.pending with
  | none => (db, .err .noFile)
  | some rows =>
      if rows.isEmpty then (db, .err .empty)
      else if index ≥ rows.length then (db, .err .invalidIndex)
      else
        let remaining := rows.eraseIdx index
        if remaining.isEmpty then ({ db with pending := none }, .ok)
        else ({ db with pending := some remaining }, .ok)

/-- `clear_all_pending_results` (`update.py` lines 665-707): remove the
pending file entirely. -/
def clear_all_pending_results (db : DB) : DB :=
  { db with pending := none }

/-- `add_admin_note_to_pending` (`update.py` lines 709-775): set or
`"; "`-append the admin note of the row at a 0-based storage index. -/
def add_admin_note_to_pending (db : DB) (index : Nat) (note : String) :
    DB × PendingOutcome :=
  match db.pending with
  | none => (db, .err .noFile)
  | some rows =>
      if rows.isEmpty then (db, .err .empty)
      else if index ≥ rows.length then (db, .err .invalidIndex)
      else
        let r := rows.getD index default
        let updated :=
          if r.notes_to_admin = "" then { r with notes_to_admin := note.trim }
          else { r with notes_to_admin := r.notes_to_admin ++ "; " ++ note.trim }
        ({ db with pending := some (rows.set index updated) }, .ok)

/-- The fields `approve_pending_results` records for a successfully
replayed entry. -/
structure ProcessedInfo where
  player1 : String
  player2 : String
  result : String
  game : String
  timestamp : Nat
deriving DecidableEq

/-- The fields `approve_pending_results` records for a failed entry. -/
structure FailedInfo where
  player1 : String
  player2 : String
  result : String
  game : String
  error : SubmitError
deriving DecidableEq

/-- Insert a pending row into a list sorted by ascending
`submission_timestamp`, after every strictly earlier row and before every
row with an equal or later key. -/
def insertPendingSorted (x : PendingRecord) :
    List PendingRecord → List PendingRecord
  | [] => [x]
  | y :: ys =>
      if y.submission_timestamp < x.submission_timestamp then
        y :: insertPendingSorted x ys
      else x :: y :: ys

/-- The sort `df.sort_values('sort_timestamp', ascending=True)` on the
`submission_timestamp` key (`update.py` lines 483-490).  The source uses
the default quicksort, whose order among equal keys is unspecified; this
models one admissible outcome (an ascending insertion sort).  Theorems
about the program's replay order rely only on sortedness and on being a
permutation of the queue, which every admissible outcome satisfies; the
source has no secondary sort key. -/
def sortPending : List PendingRecord → List PendingRecord
  | [] => []
  | x :: xs => insertPendingSorted x (sortPending xs)

/-- The comment transplant of `approve_pending_results` (lines 515-529):
after a successful replay, a nonempty pending comment overwrites the
`comments` cell of the most recent `results.csv` row. -/
def transplantComment (db : DB) (row : PendingRecord) : DB :=
  if row.comments = [] then db
  else
    match db.results with
    | none => db
    | some rows =>
        match rows.getLast? with
        | none => db
        | some r =>
            { db with
              results := some (rows.set (rows.length - 1)
                { r with comments := row.comments }) }

/-- One iteration of the approval loop (lines 495-558): replay the row
through `submit_game_without_charts`; on success transplant the pending
comment and record the row as processed, on failure record it as failed.
A failed replay writes nothing. -/
def approveStep (prob : ℚ → ℚ → ℚ)
    (acc : DB × List ProcessedInfo × List FailedInfo) (row : PendingRecord) :
    DB × List ProcessedInfo × List FailedInfo :=
  match submit_game_without_charts prob acc.1 row.player1 row.player2
      row.result row.game row.timestamp none with
  | (db1, .ok _ _ _) =>
      let info : ProcessedInfo :=
        { player1 := row.player1, player2 := row.player2,
          result := row.result, game := row.game,
          timestamp := row.timestamp }
      (transplantComment db1 row, acc.2.1 ++ [info], acc.2.2)
  | (db1, .err e) =>
      let info : FailedInfo :=
        { player1 := row.player1, player2 := row.player2,
          result := row.result, game := row.game, error := e }
      (db1, acc.2.1, acc.2.2 ++ [info])

/-- The summary dictionary returned by `approve_pending_results`. -/
structure ApproveOutcome where
  success : Bool
  processed_count : Nat
  failed_count : Nat
  total_pending : Nat
  processed_results : List ProcessedInfo
  failed_results : List FailedInfo
deriving DecidableEq

/-- The retention filter of lines 567-575: keep a sorted row when some
recorded failure matches it on `(player1, player2, result, game)`. -/
def matchesFailed (failed : List FailedInfo) (row : PendingRecord) : Bool :=
  failed.any fun f =>
    decide (f.player1 = row.player1 ∧ f.player2 = row.player2 ∧
      f.result = row.result ∧ f.game = row.game)

/-- The body of `approve_pending_results` once a nonempty queue has been
read and sorted: replay every sorted row in order, then either remove the
queue file (no failures) or rewrite it with exactly the rows matching a
recorded failure. -/
def approveFrom (prob : ℚ → ℚ → ℚ) (db : DB)
    (sorted : List PendingRecord) : DB × ApproveOutcome :=
  let folded := sorted.foldl (approveStep prob) (db, [], [])
  let db1 := folded.1
  let processed := folded.2.1
  let failed := folded.2.2
  let db2 :=
    if failed.isEmpty then { db1 with pending := none }
    else { db1 with pending := some (sorted.filter (matchesFailed failed)) }
  (db2,
   { success := true, processed_count := processed.length,
     failed_count := failed.length, total_pending := sorted.length,
     processed_results := processed, failed_results := failed })

/-- `approve_pending_results` (`update.py` lines 452-595): no-op summaries
for a missing or empty queue file; otherwise sort by ascending
`submission_timestamp` and replay through `approveFrom`. -/
def approve_pending_results (prob : ℚ → ℚ → ℚ) (db : DB) :
    DB × ApproveOutcome :=
  match db.pending with
  | none =>
      (db, { success := true, processed_count := 0, failed_count := 0,
             total_pending := 0, processed_results := [],
             failed_results := [] })
  | some rows =>
      if rows.isEmpty then
        (db, { success := true, processed_count := 0, failed_count := 0,
               total_pending := 0, processed_results := [],
               failed_results := [] })
      else approveFrom prob db (sortPending rows)

/-- The latest rating visible in a player's ledger (the `latestRating`
read used by the commit path: the last row's `rating` column). -/
def latestRating (db : DB) (game player : String) : Option ℚ :=
  ((lookupLedger db.ledgers (game, player)).getD []).getLast?.map
    (fun e => e.rating)

/-- Claim C5: for every player, game and scope, the K-factor used for a
commit equals the per-game base value (40 for games outside the static
table) when the player's committed game count (ledger entry count minus
one) is strictly below 20, and equals `min 20 base` when that count is at
least 20. -/
theorem C5_kfactor_policy (db : DB) (player game : String) :
    (count_player_games db player game < 20 →
      get_adjusted_k_factor db player game = get_k_factor game) ∧
    (count_player_games db player game ≥ 20 →
      get_adjusted_k_factor db player game = min 20 (get_k_factor game)) ∧
    (∀ l, lookupLedger db.ledgers (game, player) = some l →
      count_player_games db player game = l.length - 1) ∧
    (¬ (lowerString game = "chess" ∨ lowerString game = "pingpong" ∨
        lowerString game = "backgammon") → get_k_factor game = 40) := by
  refine ⟨?_, ?_, ?_, ?_⟩
  · intro h
    unfold get_adjusted_k_factor
    rw [if_neg (by omega)]
  · intro h
    unfold get_adjusted_k_factor
    rw [if_pos (by omega)]
  · intro l hl
    simp [count_player_games, hl]
  · intro h
    push_neg at h
    simp [get_k_factor, h.1, h.2.1, h.2.2]

/-- A bootstrap ledger row with a given starting rating. -/
def bootEntry (r : ℚ) : RatingEntry :=
  { rating := r, opponent := "no opponent", result := 0,
    colour := "no colour", timestamp := 0 }

/-- A concrete scope with one veteran chess player (21 ledger rows, hence
20 committed games). -/
def dbVeteran : DB :=
  { ledgers := [(("chess", "vet"), List.replicate 21 (bootEntry 1200))],
    results := none, pending := none, deleted := [] }

/-- Witness for C5 at concrete inputs: the veteran's K-factor is
`min 20 base`, a fresh count stays at base, and an unknown game defaults
to base 40. -/
theorem C5_kfactor_policy_witness :
    get_adjusted_k_factor dbVeteran "vet" "chess" = min 20 (get_k_factor "chess") ∧
    get_adjusted_k_factor dbVeteran "other" "chess" = get_k_factor "chess" ∧
    get_k_factor "darts" = 40 :=
  ⟨(C5_kfactor_policy dbVeteran "vet" "chess").2.1 (by decide),
   (C5_kfactor_policy dbVeteran "other" "chess").1 (by decide),
   (C5_kfactor_policy dbVeteran "other" "darts").2.2.2 (by decide)⟩

/-- Claim C10: a player whose ledger file does not exist gets game count 0
rather than an error, and therefore the per-game base K-factor. -/
theorem C10_missing_player_defaults (db : DB) (player game : String)
    (h : lookupLedger db.ledgers (game, player) = none) :
    count_player_games db player game = 0 ∧
    get_adjusted_k_factor db player game = get_k_factor game := by
  have hc : count_player_games db player game = 0 := by
    simp [count_player_games, h]
  refine ⟨hc, ?_⟩
  unfold get_adjusted_k_factor
  rw [hc]
  rfl

/-- Witness for C10: a player absent from a concrete scope. -/
theorem C10_missing_player_defaults_witness :
    count_player_games dbVeteran "ghost" "chess" = 0 ∧
    get_adjusted_k_factor dbVeteran "ghost" "chess" = get_k_factor "chess" :=
  C10_missing_player_defaults dbVeteran "ghost" "chess" (by decide)

/-- Claim C9: a direct commit whose two player names are equal, or whose
result string is not one of "1-0", "0-1", "1/2-1/2", returns an error and
leaves the whole scope state unchanged, on both commit entry points. -/
theorem C9_invalid_commit_rejected (prob : ℚ → ℚ → ℚ) (db : DB)
    (p1 p2 res game : String) (ts : Nat) (c : Option String)
    (h : p1 = p2 ∨ ¬ (res = "1-0" ∨ res = "0-1" ∨ res = "1/2-1/2")) :
    ∃ e, submit_game_without_charts prob db p1 p2 res game ts c =
        (db, .err e) ∧
      submit_game_with_charts prob db p1 p2 res game ts c = (db, .err e) := by
  by_cases h0 : p1 = "" ∨ p2 = ""
  · exact ⟨.bothPlayersRequired,
      by simp [submit_game_without_charts, h0],
      by simp [submit_game_with_charts, submit_game_without_charts, h0]⟩
  · push_neg at h0
    obtain ⟨hp1, hp2⟩ := h0
    by_cases hpp : p1 = p2
    · exact ⟨.playersMustDiffer,
        by simp [submit_game_without_charts, hp1, hp2, hpp],
        by simp [submit_game_with_charts, submit_game_without_charts, hp1,
          hp2, hpp]⟩
    · have hres : ¬ (res = "1-0" ∨ res = "0-1" ∨ res = "1/2-1/2") := by
        rcases h with h | h
        · exact absurd h hpp
        · exact h
      exact ⟨.invalidResultFormat,
        by simp [submit_game_without_charts, hp1, hp2, hpp, hres],
        by simp [submit_game_with_charts, submit_game_without_charts, hp1,
          hp2, hpp, hres]⟩

/-- Witness for C9: a same-player commit and a malformed result string are
both rejected without touching a concrete scope. -/
theorem C9_invalid_commit_rejected_witness :
    (∃ e, submit_game_without_charts (fun _ _ => 1/2) dbVeteran
        "vet" "vet" "1-0" "chess" 3 none = (dbVeteran, .err e) ∧
      submit_game_with_charts (fun _ _ => 1/2) dbVeteran
        "vet" "vet" "1-0" "chess" 3 none = (dbVeteran, .err e)) ∧
    (∃ e, submit_game_without_charts (fun _ _ => 1/2) dbVeteran
        "vet" "other" "2-0" "chess" 3 none = (dbVeteran, .err e) ∧
      submit_game_with_charts (fun _ _ => 1/2) dbVeteran
        "vet" "other" "2-0" "chess" 3 none = (dbVeteran, .err e)) :=
  ⟨C9_invalid_commit_rejected (fun _ _ => 1/2) dbVeteran "vet" "vet" "1-0"
      "chess" 3 none (Or.inl rfl),
   C9_invalid_commit_rejected (fun _ _ => 1/2) dbVeteran "vet" "other" "2-0"
      "chess" 3 none (Or.inr (by decide))⟩

/-- Claim C8: on a non-empty results log of `totalRows` records,
`addComment` targets storage position `totalRows - 1 - offset - index`;
an out-of-range position fails with the invalid-position error and writes
nothing; when the position is in range (and any supplied legacy timestamp
matches) the comment is appended to exactly that record; and
`offset = 0, index = 0` addresses position `totalRows - 1`, the most
recently committed record. -/
theorem C8_comment_position (db : DB) (rows : List ResultRecord)
    (hres : db.results = some rows) (hne : rows ≠ [])
    (tsParam : Option Nat) (comment commenter : String) (offset index : ℤ) :
    (((rows.length : ℤ) - 1 - offset - index < 0 ∨
      (rows.length : ℤ) - 1 - offset - index ≥ (rows.length : ℤ)) →
      add_comment_to_result db tsParam comment commenter offset index =
        (db, .err .invalidPosition)) ∧
    (0 ≤ (rows.length : ℤ) - 1 - offset - index →
      (rows.length : ℤ) - 1 - offset - index < (rows.length : ℤ) →
      (tsParam = none ∨ tsParam = some
        (rows.getD ((rows.length : ℤ) - 1 - offset - index).toNat
          default).timestamp) →
      add_comment_to_result db tsParam comment commenter offset index =
        ({ db with results := some (rows.set
            ((rows.length : ℤ) - 1 - offset - index).toNat
            { rows.getD ((rows.length : ℤ) - 1 - offset - index).toNat default
              with comments :=
                (rows.getD ((rows.length : ℤ) - 1 - offset - index).toNat
                  default).comments ++ [formatComment comment commenter] }) },
         .ok (rows.getD ((rows.length : ℤ) - 1 - offset - index).toNat
           default).timestamp)) ∧
    (offset = 0 → index = 0 →
      (rows.length : ℤ) - 1 - offset - index = (rows.length : ℤ) - 1) := by
  have hempty : rows.isEmpty = false := by
    cases rows with
    | nil => exact absurd rfl hne
    | cons a l => rfl
  refine ⟨?_, ?_, ?_⟩
  · intro hout
    simp only [add_comment_to_result, hres, hempty, Bool.false_eq_true,
      if_false, if_pos hout]
  · intro hlo hhi hts
    have hin : ¬ ((rows.length : ℤ) - 1 - offset - index < 0 ∨
        (rows.length : ℤ) - 1 - offset - index ≥ (rows.length : ℤ)) := by
      push_neg
      exact ⟨hlo, hhi⟩
    rcases hts with hts | hts
    · subst hts
      simp only [add_comment_to_result, hres, hempty, Bool.false_eq_true,
        if_false, if_neg hin]
    · subst hts
      simp only [add_comment_to_result, hres, hempty, Bool.false_eq_true,
        if_false, if_neg hin,
        if_neg (by simp : ¬ (rows.getD ((rows.length : ℤ) - 1 - offset -
          index).toNat default).timestamp ≠ (rows.getD ((rows.length : ℤ) -
          1 - offset - index).toNat default).timestamp)]
  · intro ho hi
    subst ho
    subst hi
    ring

/-- A concrete committed result row (most recent is `recNewest`). -/
def recOlder : ResultRecord :=
  { timestamp := 7, game := "chess", player1 := "a", player2 := "b",
    result := "1-0", probability := 1/2, player1_change := some 20,
    player2_change := some (-20), comments := [] }

/-- The most recent concrete committed result row. -/
def recNewest : ResultRecord :=
  { timestamp := 9, game := "chess", player1 := "b", player2 := "a",
    result := "0-1", probability := 1/2, player1_change := some (-20),
    player2_change := some 20, comments := ["\"old\" - x"] }

/-- A concrete scope whose results log holds two committed rows. -/
def dbTwoResults : DB :=
  { ledgers := [], results := some [recOlder, recNewest], pending := none,
    deleted := [] }

/-- Witness for C8: on a concrete two-row log, an out-of-range position is
rejected, and `offset = 0, index = 0` appends to the newest row. -/
theorem C8_comment_position_witness :
    add_comment_to_result dbTwoResults none "gg" "z" 5 0 =
      (dbTwoResults, .err .invalidPosition) ∧
    add_comment_to_result dbTwoResults none "gg" "z" 0 0 =
      ({ dbTwoResults with results := some [recOlder,
          { recNewest with comments :=
              recNewest.comments ++ [formatComment "gg" "z"] }] },
       .ok recNewest.timestamp) := by
  have h1 := (C8_comment_position dbTwoResults [recOlder, recNewest] rfl
    (by decide) none "gg" "z" 5 0).1 (by decide)
  have h2 := (C8_comment_position dbTwoResults [recOlder, recNewest] rfl
    (by decide) none "gg" "z" 0 0).2.1 (by decide) (by decide) (Or.inl rfl)
  refine ⟨h1, ?_⟩
  rw [h2]
  norm_num [List.getD, List.set]

/-- The ledger row appended for the white player by a successful commit. -/
def whiteEntry (prob : ℚ → ℚ → ℚ) (db : DB) (p1 p2 res game : String)
    (ts : Nat) (r1 r2 : ℚ) : RatingEntry :=
  { rating := r1 + (submitScore res - prob r1 r2) *
      (get_adjusted_k_factor db p1 game : ℚ),
    opponent := p2, result := submitScore res, colour := "white",
    timestamp := ts }

/-- The ledger row appended for the black player by a successful commit. -/
def blackEntry (prob : ℚ → ℚ → ℚ) (db : DB) (p1 p2 res game : String)
    (ts : Nat) (r1 r2 : ℚ) : RatingEntry :=
  { rating := r2 + ((1 - submitScore res) - prob r2 r1) *
      (get_adjusted_k_factor db p2 game : ℚ),
    opponent := p1, result := 1 - submitScore res, colour := "black",
    timestamp := ts }

/-- The `results.csv` row appended by a successful commit. -/
def commitRecord (prob : ℚ → ℚ → ℚ) (db : DB) (p1 p2 res game : String)
    (ts : Nat) (c : Option String) (r1 r2 : ℚ) : ResultRecord :=
  { timestamp := ts, game := game, player1 := p1, player2 := p2,
    result := res, probability := prob r1 r2,
    player1_change := some (pyRound ((submitScore res - prob r1 r2) *
      (get_adjusted_k_factor db p1 game : ℚ))),
    player2_change := some (pyRound (((1 - submitScore res) - prob r2 r1) *
      (get_adjusted_k_factor db p2 game : ℚ))),
    comments := commentCell c }

/-- Explicit description of a successful direct commit: under the
validation and lookup hypotheses, `submit_game_without_charts` appends the
white and black ledger rows, appends the result record, and succeeds with
the two exact (unclamped, unrounded) new ratings. -/
theorem submit_ok_shape (prob : ℚ → ℚ → ℚ) (db : DB)
    (p1 p2 res game : String) (ts : Nat) (c : Option String)
    (l1 l2 : List RatingEntry) (e1 e2 : RatingEntry)
    (hp1 : ¬ p1 = "") (hp2 : ¬ p2 = "") (hpp : ¬ p1 = p2)
    (hres : res = "1-0" ∨ res = "0-1" ∨ res = "1/2-1/2")
    (hl1 : lookupLedger db.ledgers (game, p1) = some l1)
    (hl2 : lookupLedger db.ledgers (game, p2) = some l2)
    (hg1 : l1.getLast? = some e1) (hg2 : l2.getLast? = some e2) :
    submit_game_without_charts prob db p1 p2 res game ts c =
      ({ ledgers := setLedger
            (setLedger db.ledgers (game, p1)
              (l1 ++ [whiteEntry prob db p1 p2 res game ts e1.rating e2.rating]))
            (game, p2)
            (l2 ++ [blackEntry prob db p1 p2 res game ts e1.rating e2.rating]),
         results := some ((db.results.getD []) ++
           [commitRecord prob db p1 p2 res game ts c e1.rating e2.rating]),
         pending := db.pending, deleted := db.deleted },
       .ok (e1.rating + (submitScore res - prob e1.rating e2.rating) *
            (get_adjusted_k_factor db p1 game : ℚ))
          (e2.rating + ((1 - submitScore res) - prob e2.rating e1.rating) *
            (get_adjusted_k_factor db p2 game : ℚ))
          (prob e1.rating e2.rating)) := by
  have hk21 : ¬ ((game, p2) : String × String) = (game, p1) := by
    intro hh
    exact hpp (congrArg Prod.snd hh).symm
  simp only [submit_game_without_charts]
  rw [if_neg (by simp [hp1, hp2]), if_neg hpp, if_neg (not_not.mpr hres),
    hl1, hl2]
  simp only [hg1, hg2, write_new_rating, log_result_to_team, hl1,
    lookupLedger_setLedger, hk21, if_false, hl2, whiteEntry, blackEntry,
    commitRecord, Option.map_some']

/-- Inversion of a successful direct commit: success implies the
validation conditions held, both ledgers existed with a last row, and the
payload values are the exact computed ones. -/
theorem submit_ok_inv (prob : ℚ → ℚ → ℚ) (db db1 : DB)
    (p1 p2 res game : String) (ts : Nat) (c : Option String)
    (n1 n2 pr : ℚ)
    (h : submit_game_without_charts prob db p1 p2 res game ts c =
      (db1, .ok n1 n2 pr)) :
    ∃ l1 l2 e1 e2, ¬ p1 = "" ∧ ¬ p2 = "" ∧ ¬ p1 = p2 ∧
      (res = "1-0" ∨ res = "0-1" ∨ res = "1/2-1/2") ∧
      lookupLedger db.ledgers (game, p1) = some l1 ∧
      lookupLedger db.ledgers (game, p2) = some l2 ∧
      l1.getLast? = some e1 ∧ l2.getLast? = some e2 ∧
      pr = prob e1.rating e2.rating ∧
      n1 = e1.rating + (submitScore res - prob e1.rating e2.rating) *
        (get_adjusted_k_factor db p1 game : ℚ) ∧
      n2 = e2.rating + ((1 - submitScore res) - prob e2.rating e1.rating) *
        (get_adjusted_k_factor db p2 game : ℚ) := by
  by_cases h0 : p1 = "" ∨ p2 = ""
  · rw [submit_game_without_charts, if_pos h0] at h
    simp at h
  by_cases hpp : p1 = p2
  · rw [submit_game_without_charts, if_neg h0, if_pos hpp] at h
    simp at h
  by_cases hres : res = "1-0" ∨ res = "0-1" ∨ res = "1/2-1/2"
  · push_neg at h0
    cases hl1 : lookupLedger db.ledgers (game, p1) with
    | none =>
        rw [submit_game_without_charts, if_neg (by simp [h0.1, h0.2]),
          if_neg hpp, if_neg (not_not.mpr hres), hl1] at h
        cases hl2 : lookupLedger db.ledgers (game, p2) <;>
          simp [hl2] at h
    | some l1 =>
        cases hl2 : lookupLedger db.ledgers (game, p2) with
        | none =>
            rw [submit_game_without_charts, if_neg (by simp [h0.1, h0.2]),
              if_neg hpp, if_neg (not_not.mpr hres), hl1, hl2] at h
            simp at h
        | some l2 =>
            cases hg1 : l1.getLast? with
            | none =>
                rw [submit_game_without_charts, if_neg (by simp [h0.1, h0.2]),
                  if_neg hpp, if_neg (not_not.mpr hres), hl1, hl2] at h
                cases hg2 : l2.getLast? <;> simp [hg1, hg2] at h
            | some e1 =>
                cases hg2 : l2.getLast? with
                | none =>
                    rw [submit_game_without_charts,
                      if_neg (by simp [h0.1, h0.2]), if_neg hpp,
                      if_neg (not_not.mpr hres), hl1, hl2] at h
                    simp [hg1, hg2] at h
                | some e2 =>
                    rw [submit_ok_shape prob db p1 p2 res game ts c l1 l2 e1
                      e2 h0.1 h0.2 hpp hres hl1 hl2 hg1 hg2] at h
                    injection h with hdb hok
                    injection hok with hn1 hn2 hpr
                    exact ⟨l1, l2, e1, e2, h0.1, h0.2, hpp, hres, rfl, rfl,
                      hg1, hg2, hpr.symm, hn1.symm, hn2.symm⟩
  · rw [submit_game_without_charts, if_neg h0, if_neg hpp, if_pos hres] at h
    simp at h

/-- A concrete scope with two chess players at ratings 1200 and 1205. -/
def dbPair : DB :=
  { ledgers := [(("chess", "alice"), [bootEntry 1200]),
                (("chess", "bob"), [bootEntry 1205])],
    results := none, pending := none, deleted := [] }

/-- A rational stand-in for `calculate_elo_probability` near a 1200-1205
pairing: the logistic gives P(alice wins) at 0.49281…, P(bob wins) at
0.50719…; the stand-in returns 49/100 and 51/100. -/
def probNearDraw : ℚ → ℚ → ℚ := fun a _ =>
  if a = 1200 then 49/100 else 51/100

/-- Claim C3 is false on the direct-commit path: drawing 1200 against 1205
computes the delta `(1/2 - 49/100) * 40 = 2/5` for player 1, whose
magnitude is nonzero and below 1, yet the rating appended to the ledger is
`1200 + 2/5`, not the clamped `1200 + 1`: `submit_game_without_charts`
never clamps. -/
theorem C3_counterexample :
    (1/2 - probNearDraw 1200 1205) *
      (get_adjusted_k_factor dbPair "alice" "chess" : ℚ) = 2/5 ∧
    (2/5 : ℚ) ≠ 0 ∧ |(2/5 : ℚ)| < 1 ∧
    latestRating (submit_game_without_charts probNearDraw dbPair "alice"
      "bob" "1/2-1/2" "chess" 3 none).1 "chess" "alice" =
      some (1200 + 2/5) ∧
    (1200 + 2/5 : ℚ) ≠ 1200 + 1 := by
  have hka : get_adjusted_k_factor dbPair "alice" "chess" = 40 := by decide
  have hs := submit_ok_shape probNearDraw dbPair "alice" "bob" "1/2-1/2"
    "chess" 3 none [bootEntry 1200] [bootEntry 1205] (bootEntry 1200)
    (bootEntry 1205) (by decide) (by decide) (by decide) (by decide)
    rfl rfl rfl rfl
  refine ⟨?_, by norm_num, by rw [abs_of_pos (by norm_num)]; norm_num, ?_,
    by norm_num⟩
  · rw [hka]
    norm_num [probNearDraw]
  · rw [hs]
    simp +decide only [latestRating, lookupLedger_setLedger,
      List.getLast?_concat, whiteEntry, bootEntry, probNearDraw, submitScore,
      hka, if_true, if_false, Option.getD_some, Option.map_some']
    norm_num

/-- Claim C3 amended: the clamping of nonzero sub-unit deltas to exactly
±1 (and 0 to 0) is performed by the legacy `update` function used by the
CLI commit path (`main.py`), via `clampDelta`; the direct-commit
`submit_game_*` path applies the raw, unclamped delta to the ledger. -/
theorem C3_amended_clamp_only_in_legacy_update (prob : ℚ → ℚ → ℚ)
    (c r1 r2 score K : ℚ) (db db1 : DB) (p1 p2 res game : String) (ts : Nat)
    (cm : Option String) (n1 n2 pr : ℚ)
    (hc0 : c ≠ 0) (hc1 : |c| < 1)
    (h : submit_game_without_charts prob db p1 p2 res game ts cm =
      (db1, .ok n1 n2 pr)) :
    clampDelta c = (if 0 < c then 1 else -1) ∧
    clampDelta 0 = 0 ∧
    (update prob r1 r2 score K).1 =
      pyRound (r1 + clampDelta ((score - prob r1 r2) * K)) ∧
    (update prob r1 r2 score K).2.1 =
      pyRound (r2 + clampDelta (((1 - score) - prob r2 r1) * K)) ∧
    ∃ r1p r2p,
      latestRating db game p1 = some r1p ∧
      latestRating db game p2 = some r2p ∧
      n1 = r1p + (submitScore res - prob r1p r2p) *
        (get_adjusted_k_factor db p1 game : ℚ) ∧
      latestRating db1 game p1 = some n1 := by
  refine ⟨?_, by simp [clampDelta], rfl, rfl, ?_⟩
  · unfold clampDelta
    rw [if_pos ⟨hc1, hc0⟩]
    rcases lt_trichotomy c 0 with hc | hc | hc
    · rw [abs_of_neg hc, if_neg (by linarith)]
      field_simp
    · exact absurd hc hc0
    · rw [abs_of_pos hc, if_pos hc]
      field_simp
  · obtain ⟨l1, l2, e1, e2, hp1, hp2, hpp, hres, hl1, hl2, hg1, hg2, hpr,
      hn1, hn2⟩ := submit_ok_inv prob db db1 p1 p2 res game ts cm n1 n2 pr h
    have hs := submit_ok_shape prob db p1 p2 res game ts cm l1 l2 e1 e2
      hp1 hp2 hpp hres hl1 hl2 hg1 hg2
    rw [h] at hs
    injection hs with hdb1 hok
    refine ⟨e1.rating, e2.rating, ?_, ?_, hn1, ?_⟩
    · simp [latestRating, hl1, hg1]
    · simp [latestRating, hl2, hg2]
    · have hk21 : ¬ ((game, p1) : String × String) = (game, p2) := by
        intro hh
        exact hpp (congrArg Prod.snd hh)
      rw [hdb1]
      simp [latestRating, lookupLedger_setLedger, hk21, List.getLast?_concat,
        whiteEntry, hn1]

/-- Witness for the amended C3: at the concrete near-draw commit, the
legacy clamp maps the sub-unit delta 2/5 to the sign value, and 0 to 0. -/
theorem C3_amended_clamp_only_in_legacy_update_witness :
    clampDelta (2/5 : ℚ) = (if (0 : ℚ) < 2/5 then 1 else -1) ∧
    clampDelta 0 = 0 := by
  have hs := submit_ok_shape probNearDraw dbPair "alice" "bob" "1/2-1/2"
    "chess" 3 none [bootEntry 1200] [bootEntry 1205] (bootEntry 1200)
    (bootEntry 1205) (by decide) (by decide) (by decide) (by decide)
    rfl rfl rfl rfl
  have h := C3_amended_clamp_only_in_legacy_update probNearDraw (2/5) 0 0 0 0
    dbPair _ "alice" "bob" "1/2-1/2" "chess" 3 none _ _ _
    (by norm_num) (by rw [abs_of_pos (by norm_num : (0:ℚ) < 2/5)]; norm_num)
    hs
  exact ⟨h.1, h.2.1⟩

/-- Claim C6 is false on the direct-commit path: the near-draw commit
appends the exact rational `1200 + 2/5` to the ledger, which differs from
`round(ratingSelf + delta) = 1200`: `submit_game_without_charts` writes
the unrounded float. -/
theorem C6_counterexample :
    latestRating (submit_game_without_charts probNearDraw dbPair "alice"
      "bob" "1/2-1/2" "chess" 3 none).1 "chess" "alice" =
      some (1200 + 2/5) ∧
    ((pyRound (1200 + 2/5 : ℚ) : ℤ) : ℚ) ≠ 1200 + 2/5 := by
  have hka : get_adjusted_k_factor dbPair "alice" "chess" = 40 := by decide
  have hs := submit_ok_shape probNearDraw dbPair "alice" "bob" "1/2-1/2"
    "chess" 3 none [bootEntry 1200] [bootEntry 1205] (bootEntry 1200)
    (bootEntry 1205) (by decide) (by decide) (by decide) (by decide)
    rfl rfl rfl rfl
  constructor
  · rw [hs]
    simp +decide only [latestRating, lookupLedger_setLedger,
      List.getLast?_concat, whiteEntry, bootEntry, probNearDraw, submitScore,
      hka, if_true, if_false, Option.getD_some, Option.map_some']
    norm_num
  · have hf : ⌊(1200 + 2/5 : ℚ)⌋ = 1200 := by
      rw [Int.floor_eq_iff]
      constructor <;> norm_num
    have hp : pyRound (1200 + 2/5 : ℚ) = 1200 := by
      unfold pyRound
      rw [hf, if_pos (by norm_num)]
    rw [hp]
    norm_num

/-- Claim C6 amended: on the direct-commit path the rating appended to
each player's ledger is the exact, unrounded `ratingSelf + delta`; the
rounding `round(ratingSelf + delta)` belongs to the legacy `update`
function used by the CLI commit path. -/
theorem C6_amended_ledger_rating_exact (prob : ℚ → ℚ → ℚ)
    (r1 r2 score K : ℚ) (db db1 : DB) (p1 p2 res game : String) (ts : Nat)
    (cm : Option String) (n1 n2 pr : ℚ)
    (h : submit_game_without_charts prob db p1 p2 res game ts cm =
      (db1, .ok n1 n2 pr)) :
    (∃ r1p r2p,
      latestRating db game p1 = some r1p ∧
      latestRating db game p2 = some r2p ∧
      latestRating db1 game p1 = some (r1p +
        (submitScore res - prob r1p r2p) *
        (get_adjusted_k_factor db p1 game : ℚ)) ∧
      latestRating db1 game p2 = some (r2p +
        ((1 - submitScore res) - prob r2p r1p) *
        (get_adjusted_k_factor db p2 game : ℚ))) ∧
    (update prob r1 r2 score K).1 =
      pyRound (r1 + clampDelta ((score - prob r1 r2) * K)) ∧
    (update prob r1 r2 score K).2.1 =
      pyRound (r2 + clampDelta (((1 - score) - prob r2 r1) * K)) := by
  refine ⟨?_, rfl, rfl⟩
  obtain ⟨l1, l2, e1, e2, hp1, hp2, hpp, hres, hl1, hl2, hg1, hg2, hpr,
    hn1, hn2⟩ := submit_ok_inv prob db db1 p1 p2 res game ts cm n1 n2 pr h
  have hs := submit_ok_shape prob db p1 p2 res game ts cm l1 l2 e1 e2
    hp1 hp2 hpp hres hl1 hl2 hg1 hg2
  rw [h] at hs
  injection hs with hdb1 hok
  have hk12 : ¬ ((game, p1) : String × String) = (game, p2) := by
    intro hh
    exact hpp (congrArg Prod.snd hh)
  refine ⟨e1.rating, e2.rating, ?_, ?_, ?_, ?_⟩
  · simp [latestRating, hl1, hg1]
  · simp [latestRating, hl2, hg2]
  · rw [hdb1]
    simp [latestRating, lookupLedger_setLedger, hk12, List.getLast?_concat,
      whiteEntry]
  · rw [hdb1]
    simp [latestRating, lookupLedger_setLedger, List.getLast?_concat,
      blackEntry]

/-- Witness for the amended C6: the concrete near-draw commit appends the
exact unrounded new ratings for both players. -/
theorem C6_amended_ledger_rating_exact_witness :
    ∃ r1p r2p,
      latestRating dbPair "chess" "alice" = some r1p ∧
      latestRating dbPair "chess" "bob" = some r2p ∧
      latestRating (submit_game_without_charts probNearDraw dbPair "alice"
        "bob" "1/2-1/2" "chess" 3 none).1 "chess" "alice" = some (r1p +
        (submitScore "1/2-1/2" - probNearDraw r1p r2p) *
        (get_adjusted_k_factor dbPair "alice" "chess" : ℚ)) ∧
      latestRating (submit_game_without_charts probNearDraw dbPair "alice"
        "bob" "1/2-1/2" "chess" 3 none).1 "chess" "bob" = some (r2p +
        ((1 - submitScore "1/2-1/2") - probNearDraw r2p r1p) *
        (get_adjusted_k_factor dbPair "bob" "chess" : ℚ)) := by
  have hs := submit_ok_shape probNearDraw dbPair "alice" "bob" "1/2-1/2"
    "chess" 3 none [bootEntry 1200] [bootEntry 1205] (bootEntry 1200)
    (bootEntry 1205) (by decide) (by decide) (by decide) (by decide)
    rfl rfl rfl rfl
  have h := C6_amended_ledger_rating_exact probNearDraw 0 0 0 0
    dbPair _ "alice" "bob" "1/2-1/2" "chess" 3 none _ _ _ hs
  obtain ⟨r1p, r2p, h1, h2, h3, h4⟩ := h.1
  refine ⟨r1p, r2p, h1, h2, ?_, ?_⟩
  · rw [hs]
    exact h3
  · rw [hs]
    exact h4

/-- Truncating a ledger that ends in a committed row beyond the bootstrap
removes exactly that row and reports it. -/
theorem undoTruncatePlayer_eq (db : DB) (game player : String)
    (l : List RatingEntry) (e : RatingEntry)
    (hl : lookupLedger db.ledgers (game, player) = some (l ++ [e]))
    (hne : l ≠ []) :
    undoTruncatePlayer db game player =
      ({ db with ledgers := setLedger db.ledgers (game, player) l },
       some (player, e)) := by
  have hlen : ¬ (l ++ [e]).length ≤ 1 := by
    have := List.length_pos.mpr hne
    simp only [List.length_append, List.length_cons, List.length_nil]
    omega
  unfold undoTruncatePlayer
  rw [hl]
  dsimp only
  rw [if_neg hlen, List.getLast?_concat, List.dropLast_concat]

/-- Claim C1: committing `(player1, player2, result)` directly and then
immediately calling `undoLast` restores both players' ledgers (hence
their latest ratings) to their pre-commit state, removes exactly the
appended ResultRecord from the results tail, and appends exactly one
DeletedResultRecord to the deleted log. -/
theorem C1_undo_inverts_commit (prob : ℚ → ℚ → ℚ) (db db1 : DB)
    (p1 p2 res game : String) (ts dts : Nat) (cm : Option String)
    (n1 n2 pr : ℚ)
    (hsub : submit_game_without_charts prob db p1 p2 res game ts cm =
      (db1, .ok n1 n2 pr)) :
    (undo_last_result db1 dts).1.ledgers = db.ledgers ∧
    latestRating (undo_last_result db1 dts).1 game p1 =
      latestRating db game p1 ∧
    latestRating (undo_last_result db1 dts).1 game p2 =
      latestRating db game p2 ∧
    (undo_last_result db1 dts).1.results = some (db.results.getD []) ∧
    (undo_last_result db1 dts).1.deleted = db.deleted ++
      [{ original_timestamp := ts, deletion_timestamp := dts, game := game,
         player1 := p1, player2 := p2, result := res, probability := pr }] ∧
    (undo_last_result db1 dts).1.pending = db.pending ∧
    ∃ u es, (undo_last_result db1 dts).2 = .ok u es := by
  obtain ⟨l1, l2, e1, e2, hp1, hp2, hpp, hresv, hl1, hl2, hg1, hg2, hpr,
    hn1, hn2⟩ := submit_ok_inv prob db db1 p1 p2 res game ts cm n1 n2 pr hsub
  have hs := submit_ok_shape prob db p1 p2 res game ts cm l1 l2 e1 e2
    hp1 hp2 hpp hresv hl1 hl2 hg1 hg2
  rw [hsub] at hs
  injection hs with hdb1 hok
  have hk12 : ¬ ((game, p1) : String × String) = (game, p2) := by
    intro hh
    exact hpp (congrArg Prod.snd hh)
  have hk21 : ¬ ((game, p2) : String × String) = (game, p1) := by
    intro hh
    exact hpp (congrArg Prod.snd hh).symm
  have hl1ne : l1 ≠ [] := by
    intro hh
    rw [hh] at hg1
    simp at hg1
  have hl2ne : l2 ≠ [] := by
    intro hh
    rw [hh] at hg2
    simp at hg2
  have hlen1 : ¬ (l1 ++ [whiteEntry prob db p1 p2 res game ts e1.rating
      e2.rating]).length ≤ 1 := by
    have := List.length_pos.mpr hl1ne
    simp only [List.length_append, List.length_cons, List.length_nil]
    omega
  have hlen2 : ¬ (l2 ++ [blackEntry prob db p1 p2 res game ts e1.rating
      e2.rating]).length ≤ 1 := by
    have := List.length_pos.mpr hl2ne
    simp only [List.length_append, List.length_cons, List.length_nil]
    omega
  have hundo : undo_last_result db1 dts =
      (({ ledgers := db.ledgers, results := some (db.results.getD []),
          pending := db.pending,
          deleted := db.deleted ++
            [{ original_timestamp := ts, deletion_timestamp := dts,
               game := game, player1 := p1, player2 := p2, result := res,
               probability := prob e1.rating e2.rating }] } : DB),
       .ok (commitRecord prob db p1 p2 res game ts cm e1.rating e2.rating)
         [(p1, whiteEntry prob db p1 p2 res game ts e1.rating e2.rating),
          (p2, blackEntry prob db p1 p2 res game ts e1.rating e2.rating)]) := by
    rw [hdb1]
    simp only [undo_last_result, log_deleted_result, undoTruncatePlayer,
      commitRecord, List.getLast?_concat, List.dropLast_concat,
      lookupLedger_setLedger, hk12, hk21, hlen1, hlen2, if_false, if_true,
      eq_self_iff_true, Option.toList_some, List.singleton_append]
    rw [setLedger_restore db.ledgers (game, p1) (game, p2) l1 l2 _ _
      (fun hh => hk12 hh) hl1 hl2]
  rw [hundo, hpr]
  refine ⟨rfl, ?_, ?_, rfl, rfl, rfl, ⟨_, _, rfl⟩⟩
  · simp [latestRating]
  · simp [latestRating]

/-- Witness for C1: the concrete near-draw commit followed by an immediate
undo restores the two bootstrap ledgers, leaves an empty results log, and
succeeds. -/
theorem C1_undo_inverts_commit_witness :
    (undo_last_result (submit_game_without_charts probNearDraw dbPair
      "alice" "bob" "1/2-1/2" "chess" 3 none).1 9).1.ledgers =
      dbPair.ledgers ∧
    (undo_last_result (submit_game_without_charts probNearDraw dbPair
      "alice" "bob" "1/2-1/2" "chess" 3 none).1 9).1.results = some [] ∧
    ∃ u es, (undo_last_result (submit_game_without_charts probNearDraw
      dbPair "alice" "bob" "1/2-1/2" "chess" 3 none).1 9).2 = .ok u es := by
  have hs := submit_ok_shape probNearDraw dbPair "alice" "bob" "1/2-1/2"
    "chess" 3 none [bootEntry 1200] [bootEntry 1205] (bootEntry 1200)
    (bootEntry 1205) (by decide) (by decide) (by decide) (by decide)
    rfl rfl rfl rfl
  have h := C1_undo_inverts_commit probNearDraw dbPair _ "alice" "bob"
    "1/2-1/2" "chess" 3 9 none _ _ _ hs
  rw [hs]
  refine ⟨h.1, ?_, h.2.2.2.2.2.2⟩
  have h4 := h.2.2.2.1
  simpa [dbPair] using h4

/-- Every mutating operation of the core (the write API of `update.py`),
as replayable transitions over the scope state. -/
inductive Op where
  | makeNewPlayer (player game : String) (rating : ℚ) (ts : Nat)
  | writeNewRating (player : String) (rating : ℚ) (opponent : String)
      (result : ℚ) (game colour : String) (ts : Nat)
  | submitWithoutCharts (player1 player2 result game : String) (ts : Nat)
      (comment : Option String)
  | submitWithCharts (player1 player2 result game : String) (ts : Nat)
      (comment : Option String)
  | undoLast (dts : Nat)
  | deleteLastEntry (game : String) (players : List String)
  | deletePlayer (player game : String)
  | approveAll
  | logResult (player1 player2 result game : String) (probability : ℚ)
      (ts : Nat) (change1 change2 : Option ℚ) (comment : Option String)
  | logDeleted (player1 player2 result game : String) (probability : ℚ)
      (original_ts deletion_ts : Nat)
  | logPending (player1 player2 result game : String) (probability : ℚ)
      (ts submission_ts : Nat) (change1 change2 : Option ℚ)
      (comment : Option String)
  | deletePending (index : Nat)
  | clearPending
  | addAdminNote (index : Nat) (note : String)
  | addComment (tsParam : Option Nat) (comment commenter : String)
      (offset index : ℤ)

/-- Apply one operation to the scope state (discarding response values). -/
def applyOp (prob : ℚ → ℚ → ℚ) (db : DB) : Op → DB
  | .makeNewPlayer p g r ts => make_new_player db p g r ts
  | .writeNewRating p r o sc g c ts => write_new_rating db p r o sc g c ts
  | .submitWithoutCharts p1 p2 res g ts cm =>
      (submit_game_without_charts prob db p1 p2 res g ts cm).1
  | .submitWithCharts p1 p2 res g ts cm =>
      (submit_game_with_charts prob db p1 p2 res g ts cm).1
  | .undoLast dts => (undo_last_result db dts).1
  | .deleteLastEntry g ps => delete_last_entry db g ps
  | .deletePlayer p g => delete_player db p g
  | .approveAll => (approve_pending_results prob db).1
  | .logResult p1 p2 res g pb ts c1 c2 cm =>
      log_result_to_team db p1 p2 res g pb ts c1 c2 cm
  | .logDeleted p1 p2 res g pb ots dts =>
      log_deleted_result db p1 p2 res g pb ots dts
  | .logPending p1 p2 res g pb ts sts c1 c2 cm =>
      log_pending_result db p1 p2 res g pb ts sts c1 c2 cm
  | .deletePending i => (delete_pending_result db i).1
  | .clearPending => clear_all_pending_results db
  | .addAdminNote i n => (add_admin_note_to_pending db i n).1
  | .addComment tsP c cn o i => (add_comment_to_result db tsP c cn o i).1

/-- Apply a sequence of operations in order. -/
def applyOps (prob : ℚ → ℚ → ℚ) (db : DB) : List Op → DB
  | [] => db
  | op :: ops => applyOps prob (applyOp prob db op) ops

/-- The C7 invariant on a ledger list: every stored ledger is non-empty. -/
def LedgerListNonempty
    (ls : List ((String × String) × List RatingEntry)) : Prop :=
  ∀ k l, lookupLedger ls k = some l → l ≠ []

/-- The C7 invariant: every existing player ledger in the scope holds at
least one entry (the bootstrap). -/
def LedgersNonempty (db : DB) : Prop :=
  LedgerListNonempty db.ledgers

theorem ledgerList_set_nonempty
    (ls : List ((String × String) × List RatingEntry))
    (k : String × String) (v : List RatingEntry)
    (h : LedgerListNonempty ls) (hv : v ≠ []) :
    LedgerListNonempty (setLedger ls k v) := by
  intro k' l hl
  rw [lookupLedger_setLedger] at hl
  by_cases hk : k' = k
  · rw [if_pos hk] at hl
    injection hl with hh
    exact hh ▸ hv
  · rw [if_neg hk] at hl
    exact h k' l hl

theorem ledgers_eq_nonempty (dbA dbB : DB)
    (hled : dbA.ledgers = dbB.ledgers) (h : LedgersNonempty dbB) :
    LedgersNonempty dbA := by
  unfold LedgersNonempty
  rw [hled]
  exact h

theorem write_new_rating_nonempty (db : DB) (p : String) (r : ℚ)
    (o : String) (sc : ℚ) (g c : String) (ts : Nat)
    (h : LedgersNonempty db) :
    LedgersNonempty (write_new_rating db p r o sc g c ts) := by
  unfold write_new_rating
  dsimp only
  split
  · exact ledgerList_set_nonempty _ _ _ h (by simp)
  · exact ledgerList_set_nonempty _ _ _ h (by simp)

theorem make_new_player_nonempty (db : DB) (p g : String) (r : ℚ) (ts : Nat)
    (h : LedgersNonempty db) :
    LedgersNonempty (make_new_player db p g r ts) := by
  unfold make_new_player
  split
  · exact h
  · exact ledgerList_set_nonempty _ _ _ h (by simp)

theorem delete_player_nonempty (db : DB) (p g : String)
    (h : LedgersNonempty db) : LedgersNonempty (delete_player db p g) := by
  intro k l hl
  unfold delete_player at hl
  simp only at hl
  rw [lookupLedger_removeLedger] at hl
  by_cases hk : k = (g, p)
  · rw [if_pos hk] at hl
    exact absurd hl (by simp)
  · rw [if_neg hk] at hl
    exact h k l hl

theorem undoTruncatePlayer_nonempty (db : DB) (g p : String)
    (h : LedgersNonempty db) :
    LedgersNonempty (undoTruncatePlayer db g p).1 := by
  unfold undoTruncatePlayer
  split
  · exact h
  · rename_i l hl
    split
    · exact h
    · rename_i hlen
      split
      · refine ledgerList_set_nonempty _ _ _ h ?_
        have hlast : l.dropLast.length = l.length - 1 := List.length_dropLast l
        intro hh
        rw [hh] at hlast
        simp at hlast
        omega
      · exact h

theorem delete_last_entry_nonempty (db : DB) (g : String)
    (ps : List String) (h : LedgersNonempty db) :
    LedgersNonempty (delete_last_entry db g ps) := by
  induction ps generalizing db with
  | nil => exact h
  | cons p ps ih =>
      exact ih _ (undoTruncatePlayer_nonempty db g p h)

theorem submit_nonempty (prob : ℚ → ℚ → ℚ) (db : DB)
    (p1 p2 res g : String) (ts : Nat) (cm : Option String)
    (h : LedgersNonempty db) :
    LedgersNonempty
      (submit_game_without_charts prob db p1 p2 res g ts cm).1 := by
  unfold submit_game_without_charts
  split
  · exact h
  split
  · exact h
  split
  · exact h
  split
  · split
    · exact write_new_rating_nonempty _ _ _ _ _ _ _ _
        (write_new_rating_nonempty _ _ _ _ _ _ _ _ h)
    · exact h
  · exact h

theorem undo_last_result_nonempty (db : DB) (dts : Nat)
    (h : LedgersNonempty db) :
    LedgersNonempty (undo_last_result db dts).1 := by
  unfold undo_last_result
  split
  · exact h
  split
  · exact h
  refine undoTruncatePlayer_nonempty _ _ _
    (undoTruncatePlayer_nonempty _ _ _ ?_)
  exact h

theorem transplantComment_ledgers (db : DB) (row : PendingRecord) :
    (transplantComment db row).ledgers = db.ledgers := by
  unfold transplantComment
  split
  · rfl
  split
  · rfl
  split
  · rfl
  · rfl

theorem approve_nonempty (prob : ℚ → ℚ → ℚ) (db : DB)
    (h : LedgersNonempty db) :
    LedgersNonempty (approve_pending_results prob db).1 := by
  have hfold : ∀ (rows : List PendingRecord)
      (acc : DB × List ProcessedInfo × List FailedInfo),
      LedgersNonempty acc.1 →
      LedgersNonempty (rows.foldl (approveStep prob) acc).1 := by
    intro rows
    induction rows with
    | nil => intro acc hacc; exact hacc
    | cons row rows ih =>
        intro acc hacc
        simp only [List.foldl_cons]
        refine ih _ ?_
        unfold approveStep
        rcases hsr : submit_game_without_charts prob acc.1 row.player1
          row.player2 row.result row.game row.timestamp none with ⟨db1, r⟩
        have hdb1 : LedgersNonempty db1 := by
          have := submit_nonempty prob acc.1 row.player1 row.player2
            row.result row.game row.timestamp none hacc
          rw [hsr] at this
          exact this
        cases r with
        | ok a b c =>
            exact ledgers_eq_nonempty _ _ (transplantComment_ledgers db1 row)
              hdb1
        | err e => exact hdb1
  unfold approve_pending_results
  split
  · exact h
  split
  · exact h
  unfold approveFrom
  dsimp only
  split
  · exact hfold _ _ h
  · exact hfold _ _ h

theorem delete_pending_ledgers (db : DB) (i : Nat) :
    (delete_pending_result db i).1.ledgers = db.ledgers := by
  unfold delete_pending_result
  dsimp only
  split
  · rfl
  split
  · rfl
  split
  · rfl
  split
  · rfl
  · rfl

theorem add_admin_note_ledgers (db : DB) (i : Nat) (n : String) :
    (add_admin_note_to_pending db i n).1.ledgers = db.ledgers := by
  unfold add_admin_note_to_pending
  dsimp only
  split
  · rfl
  split
  · rfl
  split
  · rfl
  · rfl

theorem add_comment_ledgers (db : DB) (tsP : Option Nat) (c cn : String)
    (o i : ℤ) : (add_comment_to_result db tsP c cn o i).1.ledgers =
      db.ledgers := by
  unfold add_comment_to_result
  dsimp only
  split
  · rfl
  split
  · rfl
  split
  · rfl
  split
  · split
    · rfl
    · rfl
  · rfl

/-- Every core operation preserves the non-empty-ledger invariant. -/
theorem applyOp_nonempty (prob : ℚ → ℚ → ℚ) (db : DB) (op : Op)
    (h : LedgersNonempty db) : LedgersNonempty (applyOp prob db op) := by
  cases op with
  | makeNewPlayer p g r ts => exact make_new_player_nonempty db p g r ts h
  | writeNewRating p r o sc g c ts =>
      exact write_new_rating_nonempty db p r o sc g c ts h
  | submitWithoutCharts p1 p2 res g ts cm =>
      exact submit_nonempty prob db p1 p2 res g ts cm h
  | submitWithCharts p1 p2 res g ts cm =>
      exact submit_nonempty prob db p1 p2 res g ts cm h
  | undoLast dts => exact undo_last_result_nonempty db dts h
  | deleteLastEntry g ps => exact delete_last_entry_nonempty db g ps h
  | deletePlayer p g => exact delete_player_nonempty db p g h
  | approveAll => exact approve_nonempty prob db h
  | logResult p1 p2 res g pb ts c1 c2 cm => exact h
  | logDeleted p1 p2 res g pb ots dts => exact h
  | logPending p1 p2 res g pb ts sts c1 c2 cm => exact h
  | deletePending i =>
      exact ledgers_eq_nonempty _ _ (delete_pending_ledgers db i) h
  | clearPending => exact h
  | addAdminNote i n =>
      exact ledgers_eq_nonempty _ _ (add_admin_note_ledgers db i n) h
  | addComment tsP c cn o i =>
      exact ledgers_eq_nonempty _ _ (add_comment_ledgers db tsP c cn o i) h

/-- Claim C7: after any sequence of core operations starting from a state
whose existing ledgers are all non-empty, every existing ledger still has
at least one entry (the bootstrap); and the truncate-last primitive
refuses to remove the final remaining entry of a ledger (standalone or
inside undo). -/
theorem C7_bootstrap_never_removed (prob : ℚ → ℚ → ℚ) (db : DB)
    (ops : List Op) (h : LedgersNonempty db) :
    LedgersNonempty (applyOps prob db ops) ∧
    (∀ g p l, lookupLedger db.ledgers (g, p) = some l → l.length ≤ 1 →
      undoTruncatePlayer db g p = (db, none)) := by
  constructor
  · induction ops generalizing db with
    | nil => exact h
    | cons op ops ih => exact ih _ (applyOp_nonempty prob db op h)
  · intro g p l hl hlen
    unfold undoTruncatePlayer
    rw [hl]
    dsimp only
    rw [if_pos hlen]

/-- Witness for C7: creating a player and committing a game over an empty
scope leaves every ledger non-empty, and truncation refuses on a
bootstrap-only ledger. -/
theorem C7_bootstrap_never_removed_witness :
    LedgersNonempty (applyOps probNearDraw dbPair
      [Op.submitWithoutCharts "alice" "bob" "1/2-1/2" "chess" 3 none,
       Op.undoLast 9, Op.makeNewPlayer "carol" "chess" 1200 0]) ∧
    (∀ g p l, lookupLedger dbPair.ledgers (g, p) = some l → l.length ≤ 1 →
      undoTruncatePlayer dbPair g p = (dbPair, none)) := by
  refine C7_bootstrap_never_removed probNearDraw dbPair _ ?_
  intro k l hl
  unfold dbPair at hl
  dsimp only at hl
  unfold lookupLedger at hl
  split at hl
  · injection hl with hh
    rw [← hh]
    simp
  · unfold lookupLedger at hl
    split at hl
    · injection hl with hh
      rw [← hh]
      simp
    · exact absurd hl (by unfold lookupLedger; simp)

/-- A concrete pending row for a chess win between named players. -/
def pendRow (p1 p2 : String) (ts sub : Nat) : PendingRecord :=
  { timestamp := ts, game := "chess", player1 := p1, player2 := p2,
    result := "1-0", probability := 1/2, player1_change := none,
    player2_change := none, comments := [], submission_timestamp := sub,
    notes_to_admin := "" }

/-- A concrete scope whose queue holds two rows with equal submission
timestamps whose game timestamps are out of order. -/
def dbQueue : DB :=
  { dbPair with pending := some [pendRow "alice" "bob" 10 5,
      pendRow "alice" "bob" 3 5] }

/-- Claim C2 is false: on a queue of two records with equal
`submission_timestamp` (5) and game timestamps 10 then 3, the replay
processes the game-timestamp-10 record first — the sort has no
game-timestamp tie-break.  (On a two-element array with equal keys the
source's quicksort performs no swap, so the model's order here is also
the program's.) -/
theorem C2_counterexample :
    dbQueue.pending = some [pendRow "alice" "bob" 10 5,
      pendRow "alice" "bob" 3 5] ∧
    (pendRow "alice" "bob" 10 5).submission_timestamp =
      (pendRow "alice" "bob" 3 5).submission_timestamp ∧
    (pendRow "alice" "bob" 3 5).timestamp <
      (pendRow "alice" "bob" 10 5).timestamp ∧
    (approve_pending_results probNearDraw dbQueue).2.processed_results =
      [{ player1 := "alice", player2 := "bob", result := "1-0",
         game := "chess", timestamp := 10 },
       { player1 := "alice", player2 := "bob", result := "1-0",
         game := "chess", timestamp := 3 }] :=
  ⟨rfl, rfl, by decide, by decide⟩

theorem mem_insertPendingSorted (x z : PendingRecord)
    (l : List PendingRecord) :
    z ∈ insertPendingSorted x l ↔ z = x ∨ z ∈ l := by
  induction l with
  | nil => simp [insertPendingSorted]
  | cons y ys ih =>
      unfold insertPendingSorted
      split
      · simp only [List.mem_cons, ih]
        tauto
      · simp only [List.mem_cons]

theorem insertPendingSorted_sorted (x : PendingRecord)
    (l : List PendingRecord)
    (h : List.Pairwise
      (fun a b => a.submission_timestamp ≤ b.submission_timestamp) l) :
    List.Pairwise
      (fun a b => a.submission_timestamp ≤ b.submission_timestamp)
      (insertPendingSorted x l) := by
  induction l with
  | nil => simp [insertPendingSorted]
  | cons y ys ih =>
      rw [List.pairwise_cons] at h
      unfold insertPendingSorted
      split
      · rename_i hyx
        rw [List.pairwise_cons]
        refine ⟨?_, ih h.2⟩
        intro z hz
        rw [mem_insertPendingSorted] at hz
        rcases hz with hz | hz
        · rw [hz]
          omega
        · exact h.1 z hz
      · rename_i hyx
        rw [List.pairwise_cons]
        refine ⟨?_, List.pairwise_cons.mpr h⟩
        intro z hz
        rcases List.mem_cons.mp hz with hz | hz
        · rw [hz]
          omega
        · have := h.1 z hz
          omega

/-- The stable sort is sorted by ascending submission timestamp. -/
theorem sortPending_sorted (rows : List PendingRecord) :
    List.Pairwise
      (fun a b => a.submission_timestamp ≤ b.submission_timestamp)
      (sortPending rows) := by
  induction rows with
  | nil => simp [sortPending]
  | cons r rs ih => exact insertPendingSorted_sorted r (sortPending rs) ih

theorem insertPendingSorted_perm (x : PendingRecord)
    (l : List PendingRecord) :
    (insertPendingSorted x l).Perm (x :: l) := by
  induction l with
  | nil => exact List.Perm.refl _
  | cons y ys ih =>
      unfold insertPendingSorted
      split
      · exact (ih.cons y).trans (List.Perm.swap x y ys)
      · exact List.Perm.refl _

/-- The replay list is a permutation of the queue rows. -/
theorem sortPending_perm (rows : List PendingRecord) :
    (sortPending rows).Perm rows := by
  induction rows with
  | nil => exact List.Perm.refl _
  | cons r rs ih =>
      exact (insertPendingSorted_perm r (sortPending rs)).trans (ih.cons r)

/-- Claim C2 amended: `approveAll` replays the queue rows in ascending
`submission_timestamp` order — the replay list is a sorted permutation of
the queue — and there is no game-timestamp tie-break: the relative order
of records with equal submission timestamps is whatever the sort
produces, unspecified by the source. -/
theorem C2_amended_replay_order (prob : ℚ → ℚ → ℚ) (db : DB)
    (rows : List PendingRecord) (hp : db.pending = some rows)
    (hne : rows.isEmpty = false) :
    approve_pending_results prob db =
      approveFrom prob db (sortPending rows) ∧
    List.Pairwise
      (fun a b => a.submission_timestamp ≤ b.submission_timestamp)
      (sortPending rows) ∧
    (sortPending rows).Perm rows := by
  refine ⟨?_, sortPending_sorted rows, sortPending_perm rows⟩
  unfold approve_pending_results
  rw [hp]
  simp [hne]

/-- Witness for the amended C2: the concrete two-row queue is replayed as
a sorted permutation of itself. -/
theorem C2_amended_replay_order_witness :
    approve_pending_results probNearDraw dbQueue =
      approveFrom probNearDraw dbQueue
        (sortPending [pendRow "alice" "bob" 10 5,
          pendRow "alice" "bob" 3 5]) ∧
    List.Pairwise
      (fun a b => a.submission_timestamp ≤ b.submission_timestamp)
      (sortPending [pendRow "alice" "bob" 10 5,
        pendRow "alice" "bob" 3 5]) ∧
    (sortPending [pendRow "alice" "bob" 10 5,
      pendRow "alice" "bob" 3 5]).Perm
      [pendRow "alice" "bob" 10 5, pendRow "alice" "bob" 3 5] :=
  C2_amended_replay_order probNearDraw dbQueue
    [pendRow "alice" "bob" 10 5, pendRow "alice" "bob" 3 5] rfl (by decide)

/-- Whether a player's ledger file exists (`os.path.exists` view used by
the commit path through `read_ratings`). -/
def playerFilePresent (ls : List ((String × String) × List RatingEntry))
    (game player : String) : Bool :=
  (lookupLedger ls (game, player)).isSome

/-- Whether a player's ledger file exists and holds at least one row
(`ratings[-1]` succeeds). -/
def playerHasRow (ls : List ((String × String) × List RatingEntry))
    (game player : String) : Bool :=
  match lookupLedger ls (game, player) with
  | some l => l.getLast?.isSome
  | none => false

/-- The decision structure of `submit_game_without_charts`: which error a
direct commit of this tuple would return against the given ledgers, or
`none` when it would succeed.  The outcome depends on the state only
through the ledger list. -/
def submitError (ls : List ((String × String) × List RatingEntry))
    (p1 p2 res game : String) : Option SubmitError :=
  if p1 = "" ∨ p2 = "" then some .bothPlayersRequired
  else if p1 = p2 then some .playersMustDiffer
  else if ¬ (res = "1-0" ∨ res = "0-1" ∨ res = "1/2-1/2") then
    some .invalidResultFormat
  else if playerFilePresent ls game p1 && playerFilePresent ls game p2 then
    if playerHasRow ls game p1 && playerHasRow ls game p2 then none
    else some .playerLedgerEmpty
  else some .playerFileMissing

/-- A failed commit returns exactly the error predicted by `submitError`
and leaves the state unchanged. -/
theorem submit_err_of_submitError (prob : ℚ → ℚ → ℚ) (db : DB)
    (p1 p2 res game : String) (ts : Nat) (cm : Option String)
    (e : SubmitError)
    (h : submitError db.ledgers p1 p2 res game = some e) :
    submit_game_without_charts prob db p1 p2 res game ts cm =
      (db, .err e) := by
  unfold submitError at h
  unfold submit_game_without_charts
  by_cases h0 : p1 = "" ∨ p2 = ""
  · rw [if_pos h0] at h
    injection h with hh
    rw [if_pos h0, ← hh]
  rw [if_neg h0] at h
  rw [if_neg h0]
  by_cases hpp : p1 = p2
  · rw [if_pos hpp] at h
    injection h with hh
    rw [if_pos hpp, ← hh]
  rw [if_neg hpp] at h
  rw [if_neg hpp]
  by_cases hres : ¬ (res = "1-0" ∨ res = "0-1" ∨ res = "1/2-1/2")
  · rw [if_pos hres] at h
    injection h with hh
    rw [if_pos hres, ← hh]
  rw [if_neg hres] at h
  rw [if_neg hres]
  cases hA : lookupLedger db.ledgers (game, p1) with
  | none =>
      simp only [playerFilePresent, hA, Option.isSome_none,
        Bool.false_and, if_false, Bool.false_eq_true] at h
      injection h with hh
      cases hB : lookupLedger db.ledgers (game, p2) <;>
        simp [← hh]
  | some l1 =>
      cases hB : lookupLedger db.ledgers (game, p2) with
      | none =>
          simp only [playerFilePresent, hA, hB, Option.isSome_none,
            Option.isSome_some, Bool.and_false, if_false,
            Bool.false_eq_true] at h
          injection h with hh
          simp [← hh]
      | some l2 =>
          simp only [playerFilePresent, hA, hB, Option.isSome_some,
            Bool.and_self, if_true, playerHasRow] at h
          cases hg1 : l1.getLast? with
          | none =>
              simp only [hg1, Option.isSome_none, Bool.false_and,
                Bool.false_eq_true, if_false] at h
              injection h with hh
              cases hg2 : l2.getLast? <;> simp [hg1, hg2, ← hh]
          | some e1 =>
              cases hg2 : l2.getLast? with
              | none =>
                  simp only [hg1, hg2, Option.isSome_none,
                    Option.isSome_some, Bool.and_false,
                    Bool.false_eq_true, if_false] at h
                  injection h with hh
                  simp [hg1, hg2, ← hh]
              | some e2 =>
                  simp [hg1, hg2] at h

/-- A commit predicted to succeed by `submitError` satisfies every
validation and lookup hypothesis of `submit_ok_shape`. -/
theorem submit_facts_of_submitError_none (ls : List ((String × String) ×
      List RatingEntry)) (p1 p2 res game : String)
    (h : submitError ls p1 p2 res game = none) :
    ∃ l1 l2 e1 e2, ¬ p1 = "" ∧ ¬ p2 = "" ∧ ¬ p1 = p2 ∧
      (res = "1-0" ∨ res = "0-1" ∨ res = "1/2-1/2") ∧
      lookupLedger ls (game, p1) = some l1 ∧
      lookupLedger ls (game, p2) = some l2 ∧
      l1.getLast? = some e1 ∧ l2.getLast? = some e2 := by
  unfold submitError at h
  by_cases h0 : p1 = "" ∨ p2 = ""
  · rw [if_pos h0] at h
    exact absurd h (by simp)
  rw [if_neg h0] at h
  by_cases hpp : p1 = p2
  · rw [if_pos hpp] at h
    exact absurd h (by simp)
  rw [if_neg hpp] at h
  by_cases hres : ¬ (res = "1-0" ∨ res = "0-1" ∨ res = "1/2-1/2")
  · rw [if_pos hres] at h
    exact absurd h (by simp)
  rw [if_neg hres] at h
  push_neg at h0
  rw [not_not] at hres
  cases hA : lookupLedger ls (game, p1) with
  | none =>
      rw [show playerFilePresent ls game p1 = false by
        simp [playerFilePresent, hA]] at h
      exact absurd h (by simp)
  | some l1 =>
      cases hB : lookupLedger ls (game, p2) with
      | none =>
          rw [show playerFilePresent ls game p2 = false by
            simp [playerFilePresent, hB]] at h
          exact absurd h (by simp)
      | some l2 =>
          rw [show playerFilePresent ls game p1 = true by
              simp [playerFilePresent, hA],
            show playerFilePresent ls game p2 = true by
              simp [playerFilePresent, hB]] at h
          cases hg1 : l1.getLast? with
          | none =>
              rw [show playerHasRow ls game p1 = false by
                simp [playerHasRow, hA, hg1]] at h
              exact absurd h (by simp)
          | some e1 =>
              cases hg2 : l2.getLast? with
              | none =>
                  rw [show playerHasRow ls game p2 = false by
                    simp [playerHasRow, hB, hg2]] at h
                  exact absurd h (by simp)
              | some e2 =>
                  exact ⟨l1, l2, e1, e2, h0.1, h0.2, hpp, hres, rfl, rfl,
                    hg1, hg2⟩

/-- The ledgers written by a successful commit leave the outcome of every
other tuple's `submitError` unchanged: the two touched ledgers stay
present and non-empty, and no other ledger changes. -/
theorem submitError_after_commit
    (ls : List ((String × String) × List RatingEntry))
    (k1 k2 : String × String) (l1 l2 : List RatingEntry)
    (e1 e2 : RatingEntry) (w b : RatingEntry)
    (hl1 : lookupLedger ls k1 = some l1)
    (hl2 : lookupLedger ls k2 = some l2)
    (hg1 : l1.getLast? = some e1) (hg2 : l2.getLast? = some e2)
    (q1 q2 s g : String) :
    submitError (setLedger (setLedger ls k1 (l1 ++ [w])) k2 (l2 ++ [b]))
      q1 q2 s g = submitError ls q1 q2 s g := by
  have hlook : ∀ kk, lookupLedger
      (setLedger (setLedger ls k1 (l1 ++ [w])) k2 (l2 ++ [b])) kk =
      if kk = k2 then some (l2 ++ [b])
      else if kk = k1 then some (l1 ++ [w]) else lookupLedger ls kk := by
    intro kk
    rw [lookupLedger_setLedger, lookupLedger_setLedger]
  have hpres : ∀ gg pp, playerFilePresent
      (setLedger (setLedger ls k1 (l1 ++ [w])) k2 (l2 ++ [b])) gg pp =
      playerFilePresent ls gg pp := by
    intro gg pp
    unfold playerFilePresent
    rw [hlook]
    by_cases hq2 : ((gg, pp) : String × String) = k2
    · rw [if_pos hq2, hq2, hl2]
      rfl
    rw [if_neg hq2]
    by_cases hq1 : ((gg, pp) : String × String) = k1
    · rw [if_pos hq1, hq1, hl1]
      rfl
    rw [if_neg hq1]
  have hrow : ∀ gg pp, playerHasRow
      (setLedger (setLedger ls k1 (l1 ++ [w])) k2 (l2 ++ [b])) gg pp =
      playerHasRow ls gg pp := by
    intro gg pp
    unfold playerHasRow
    rw [hlook]
    by_cases hq2 : ((gg, pp) : String × String) = k2
    · rw [if_pos hq2, hq2, hl2]
      simp [List.getLast?_concat, hg2]
    rw [if_neg hq2]
    by_cases hq1 : ((gg, pp) : String × String) = k1
    · rw [if_pos hq1, hq1, hl1]
      simp [List.getLast?_concat, hg1]
    rw [if_neg hq1]
  unfold submitError
  rw [hpres, hpres, hrow, hrow]

/-- A commit predicted to succeed by `submitError` succeeds, and the new
state predicts the same outcome as the old one for every tuple. -/
theorem submit_ok_of_submitError_none (prob : ℚ → ℚ → ℚ) (db : DB)
    (p1 p2 res game : String) (ts : Nat) (cm : Option String)
    (h : submitError db.ledgers p1 p2 res game = none) :
    ∃ db1 n1 n2 pr,
      submit_game_without_charts prob db p1 p2 res game ts cm =
        (db1, .ok n1 n2 pr) ∧
      (∀ q1 q2 s g, submitError db1.ledgers q1 q2 s g =
        submitError db.ledgers q1 q2 s g) := by
  obtain ⟨l1, l2, e1, e2, hp1, hp2, hpp, hres, hl1, hl2, hg1, hg2⟩ :=
    submit_facts_of_submitError_none db.ledgers p1 p2 res game h
  have hs := submit_ok_shape prob db p1 p2 res game ts cm l1 l2 e1 e2
    hp1 hp2 hpp hres hl1 hl2 hg1 hg2
  refine ⟨_, _, _, _, hs, ?_⟩
  intro q1 q2 s g
  exact submitError_after_commit db.ledgers (game, p1) (game, p2) l1 l2
    e1 e2 _ _ hl1 hl2 hg1 hg2 q1 q2 s g

/-- The processed-entry summary recorded for a replayed row. -/
def toProcessed (r : PendingRecord) : ProcessedInfo :=
  { player1 := r.player1, player2 := r.player2, result := r.result,
    game := r.game, timestamp := r.timestamp }

/-- The failed-entry summary recorded for a row whose replay fails
against the given ledgers. -/
def toFailed (ls : List ((String × String) × List RatingEntry))
    (r : PendingRecord) : FailedInfo :=
  { player1 := r.player1, player2 := r.player2, result := r.result,
    game := r.game,
    error := (submitError ls r.player1 r.player2 r.result r.game).getD
      .bothPlayersRequired }

/-- Whether a row's replay fails against the given ledgers. -/
def rowFails (ls : List ((String × String) × List RatingEntry))
    (r : PendingRecord) : Bool :=
  (submitError ls r.player1 r.player2 r.result r.game).isSome

/-- The approval loop's outputs are determined row-by-row by the initial
ledgers: the processed list collects exactly the rows `submitError`
clears, the failed list exactly the rows it rejects, because a successful
commit never changes any tuple's predicted outcome and a failed one never
changes the state. -/
theorem approve_fold_spec (prob : ℚ → ℚ → ℚ)
    (ls0 : List ((String × String) × List RatingEntry))
    (sorted : List PendingRecord) :
    ∀ (db : DB) (ps : List ProcessedInfo) (fs : List FailedInfo),
      (∀ q1 q2 s g, submitError db.ledgers q1 q2 s g =
        submitError ls0 q1 q2 s g) →
      (sorted.foldl (approveStep prob) (db, ps, fs)).2.1 =
        ps ++ (sorted.filter (fun r => ! rowFails ls0 r)).map toProcessed ∧
      (sorted.foldl (approveStep prob) (db, ps, fs)).2.2 =
        fs ++ (sorted.filter (fun r => rowFails ls0 r)).map (toFailed ls0) := by
  induction sorted with
  | nil =>
      intro db ps fs hinv
      simp
  | cons row rest ih =>
      intro db ps fs hinv
      simp only [List.foldl_cons]
      cases hE : submitError db.ledgers row.player1 row.player2 row.result
        row.game with
      | some e =>
          have hsub := submit_err_of_submitError prob db row.player1
            row.player2 row.result row.game row.timestamp none e hE
          have hfail : rowFails ls0 row = true := by
            unfold rowFails
            rw [← hinv row.player1 row.player2 row.result row.game, hE]
            rfl
          have hto : toFailed ls0 row =
              { player1 := row.player1, player2 := row.player2,
                result := row.result, game := row.game, error := e } := by
            unfold toFailed
            rw [← hinv row.player1 row.player2 row.result row.game, hE]
            rfl
          have hstep : approveStep prob (db, ps, fs) row =
              (db, ps, fs ++ [toFailed ls0 row]) := by
            unfold approveStep
            dsimp only
            rw [hsub, hto]
          rw [hstep]
          have hrest := ih db ps (fs ++ [toFailed ls0 row]) hinv
          refine ⟨?_, ?_⟩
          · rw [hrest.1]
            simp [List.filter_cons, hfail]
          · rw [hrest.2]
            simp [List.filter_cons, hfail]
      | none =>
          obtain ⟨db1, n1, n2, pr, hsub, hinv1⟩ :=
            submit_ok_of_submitError_none prob db row.player1 row.player2
              row.result row.game row.timestamp none hE
          have hok : rowFails ls0 row = false := by
            unfold rowFails
            rw [← hinv row.player1 row.player2 row.result row.game, hE]
            rfl
          have hstep : approveStep prob (db, ps, fs) row =
              (transplantComment db1 row, ps ++ [toProcessed row], fs) := by
            unfold approveStep
            dsimp only
            rw [hsub]
            rfl
          rw [hstep]
          have hinv2 : ∀ q1 q2 s g,
              submitError (transplantComment db1 row).ledgers q1 q2 s g =
              submitError ls0 q1 q2 s g := by
            intro q1 q2 s g
            rw [transplantComment_ledgers, hinv1, hinv]
          have hrest := ih (transplantComment db1 row)
            (ps ++ [toProcessed row]) fs hinv2
          refine ⟨?_, ?_⟩
          · rw [hrest.1]
            simp [List.filter_cons, hok]
          · rw [hrest.2]
            simp [List.filter_cons, hok]

/-- For a row of the sorted queue, the retention filter of
`approve_pending_results` keeps it exactly when its own replay failed:
a kept row tuple-matches some failure, and every tuple-match forces the
same `submitError` outcome. -/
theorem matchesFailed_eq_rowFails
    (ls0 : List ((String × String) × List RatingEntry))
    (sorted : List PendingRecord) (r : PendingRecord) (hr : r ∈ sorted) :
    matchesFailed ((sorted.filter (fun x => rowFails ls0 x)).map
      (toFailed ls0)) r = rowFails ls0 r := by
  cases hB : rowFails ls0 r with
  | true =>
      unfold matchesFailed
      rw [List.any_eq_true]
      refine ⟨toFailed ls0 r, ?_, ?_⟩
      · exact List.mem_map_of_mem _ (List.mem_filter.mpr ⟨hr, hB⟩)
      · simp [toFailed]
  | false =>
      unfold matchesFailed
      rw [List.any_eq_false]
      intro f hf
      obtain ⟨x, hx, hfx⟩ := List.mem_map.mp hf
      have hxfail : rowFails ls0 x = true := (List.mem_filter.mp hx).2
      rw [← hfx]
      simp only [toFailed, decide_eq_true_eq]
      rintro ⟨hq1, hq2, hq3, hq4⟩
      unfold rowFails at hB hxfail
      rw [hq1, hq2, hq3, hq4] at hxfail
      rw [hxfail] at hB
      exact Bool.noConfusion hB

/-- Claim C4: the approval loop records exactly the rows whose replay
fails; when at least one entry fails, the queue file afterwards holds
exactly those failed rows (successes removed, failures retained, in
sorted order); when every entry succeeds, the queue file is removed
entirely rather than left empty. -/
theorem C4_failure_retention (prob : ℚ → ℚ → ℚ) (db : DB)
    (rows : List PendingRecord) (hp : db.pending = some rows)
    (hne : rows.isEmpty = false) :
    (approve_pending_results prob db).2.processed_results =
      ((sortPending rows).filter (fun r => ! rowFails db.ledgers r)).map
        toProcessed ∧
    (approve_pending_results prob db).2.failed_results =
      ((sortPending rows).filter (fun r => rowFails db.ledgers r)).map
        (toFailed db.ledgers) ∧
    ((approve_pending_results prob db).2.failed_results ≠ [] →
      (approve_pending_results prob db).1.pending =
        some ((sortPending rows).filter
          (fun r => rowFails db.ledgers r))) ∧
    ((approve_pending_results prob db).2.failed_results = [] →
      (approve_pending_results prob db).1.pending = none) := by
  have happ : approve_pending_results prob db =
      approveFrom prob db (sortPending rows) := by
    unfold approve_pending_results
    rw [hp]
    simp [hne]
  have hspec := approve_fold_spec prob db.ledgers (sortPending rows) db [] []
    (fun _ _ _ _ => rfl)
  rw [happ]
  unfold approveFrom
  dsimp only
  rw [hspec.1, hspec.2]
  simp only [List.nil_append]
  refine ⟨trivial, trivial, ?_, ?_⟩
  · intro hne2
    have hfilterne : ((sortPending rows).filter
        (fun r => rowFails db.ledgers r)).isEmpty = false := by
      cases hcase : (sortPending rows).filter
          (fun r => rowFails db.ledgers r) with
      | nil =>
          rw [hcase] at hne2
          exact absurd rfl hne2
      | cons a l => rfl
    rw [show (((sortPending rows).filter
        (fun r => rowFails db.ledgers r)).map (toFailed db.ledgers)).isEmpty
        = false by
      rw [List.isEmpty_eq_false_iff_exists_mem] at hfilterne ⊢
      obtain ⟨a, ha⟩ := hfilterne
      exact ⟨toFailed db.ledgers a, List.mem_map_of_mem _ ha⟩]
    simp only [Bool.false_eq_true, if_false]
    exact congrArg some (List.filter_congr fun x hx =>
      matchesFailed_eq_rowFails db.ledgers (sortPending rows) x hx)
  · intro hnil
    have hfilnil : (sortPending rows).filter
        (fun r => rowFails db.ledgers r) = [] := by
      have := List.map_eq_nil_iff.mp hnil
      exact this
    rw [hfilnil]
    rfl

/-- A concrete scope whose queue holds one replayable row and one row
naming an unknown player. -/
def dbMix : DB :=
  { dbPair with pending := some [pendRow "alice" "bob" 10 5,
      pendRow "alice" "zz" 3 6] }

/-- Witness for C4: on the mixed queue the unknown-player row is retained
alone; on the all-good queue the pending file is removed. -/
theorem C4_failure_retention_witness :
    (approve_pending_results probNearDraw dbMix).1.pending =
      some ((sortPending [pendRow "alice" "bob" 10 5,
        pendRow "alice" "zz" 3 6]).filter
        (fun r => rowFails dbMix.ledgers r)) ∧
    (approve_pending_results probNearDraw dbQueue).1.pending = none := by
  have h1 := C4_failure_retention probNearDraw dbMix
    [pendRow "alice" "bob" 10 5, pendRow "alice" "zz" 3 6] rfl (by decide)
  have h2 := C4_failure_retention probNearDraw dbQueue
    [pendRow "alice" "bob" 10 5, pendRow "alice" "bob" 3 5] rfl (by decide)
  exact ⟨h1.2.2.1 (by decide), h2.2.2.2 (by decide)⟩
